import Mathlib

/-!
Verification of the catSurv estimation engine (`Estimator.cpp`, `MFIISelector.cpp`).

Modelling conventions:
* IEEE doubles are modelled by real numbers.  The C library `exp`, whose
  overflow to `+inf` the source tests with `std::isinf`, is modelled by an
  abstract function `ℝ → WithTop ℝ` (`⊤` = overflow to infinity) that is
  positive and monotone, as IEEE `exp` is; all other double arithmetic is
  exact real arithmetic.
* `std::vector::at` is modelled by `atE`, returning `Except` on an
  out-of-range index; an `int` index converted to `size_t` is out of range
  whenever it is negative (the wrapped value exceeds any vector size).
* A thrown `std::domain_error` / `std::out_of_range` is an `Except.error`.
-/

namespace CatSurv

/-- `eps = (2^-52)^(1/3)`, the clamping constant computed in the source. -/
noncomputable def eps : ℝ := ((2:ℝ) ^ (-52 : ℤ)) ^ ((1:ℝ)/3)

lemma eps_pos : 0 < eps := by
  unfold eps
  positivity

lemma eps_lt_half : eps < 1/2 := by
  unfold eps
  have h8 : ((2:ℝ) ^ (-52 : ℤ)) < (1:ℝ)/8 := by
    rw [zpow_neg]
    rw [show ((1:ℝ)/8) = ((8:ℝ))⁻¹ by norm_num]
    apply inv_lt_inv_of_lt (by norm_num)
    have : ((2:ℝ))^(3:ℕ) < (2:ℝ)^(52:ℕ) := by
      apply pow_lt_pow_right (by norm_num) (by norm_num)
    calc (8:ℝ) = (2:ℝ)^(3:ℕ) := by norm_num
    _ < (2:ℝ)^(52:ℕ) := this
    _ = (2:ℝ)^(52:ℤ) := by norm_cast
  have hlt : ((2:ℝ) ^ (-52 : ℤ)) ^ ((1:ℝ)/3) < ((1:ℝ)/8) ^ ((1:ℝ)/3) := by
    apply Real.rpow_lt_rpow (by positivity) h8 (by norm_num)
  have h12 : ((1:ℝ)/8) ^ ((1:ℝ)/3) = 1/2 := by
    have : ((1:ℝ)/8) = ((1:ℝ)/2) ^ (3:ℝ) := by
      rw [show ((3:ℝ)) = ((3:ℕ):ℝ) by norm_num, Real.rpow_natCast]
      norm_num
    rw [this, ← Real.rpow_mul (by norm_num)]
    norm_num
  linarith

lemma eps_le_one_sub_eps : eps ≤ 1 - eps := by
  have := eps_lt_half
  linarith

lemma eps_lt_one : eps < 1 := by
  have := eps_lt_half
  linarith

/-- Model of the IEEE-double exponential used throughout `Estimator.cpp`:
a positive, monotone map into `WithTop ℝ`, where `⊤` models the overflow to
`+inf` that the source detects with `std::isinf`. -/
structure ExpModel where
  dexp : ℝ → WithTop ℝ
  pos : ∀ x, (0 : WithTop ℝ) < dexp x
  mono : Monotone dexp

/-- The `QuestionSet` data model: parallel per-item arrays plus the two row
sets (`Cat` object state mutated by the estimator). -/
structure QuestionSet where
  model : String
  discrimination : List ℝ
  difficulty : List (List ℝ)
  guessing : List ℝ
  answers : List ℤ
  applicable_rows : List ℕ
  nonapplicable_rows : List ℕ
  question_names : List String
  lowerBound : ℝ
  upperBound : ℝ
  z : List ℝ

/-- The prior's two scalar parameters (location/scale). -/
structure Prior where
  param0 : ℝ
  param1 : ℝ

/-- R's missing-answer sentinel `NA_INTEGER` (INT_MIN). -/
def NA_INTEGER : ℤ := -2147483648

/-- `std::vector::at`: checked access, throws `std::out_of_range`. -/
def atE {α : Type} (l : List α) (n : ℕ) : Except String α :=
  match l.get? n with
  | some a => Except.ok a
  | none => Except.error "vector::at: out of range"

/-- `std::vector::at` applied to an `int` index converted to `size_t`:
a negative index wraps to a value larger than any vector size, so it is out
of range. -/
def atIntE (l : List ℝ) (i : ℤ) : Except String ℝ :=
  if 0 ≤ i then atE l i.toNat else Except.error "vector::at: out of range"

lemma atE_ok {α : Type} {l : List α} {n : ℕ} (h : n < l.length) :
    atE l n = Except.ok (l.get ⟨n, h⟩) := by
  unfold atE
  rw [List.get?_eq_get h]

lemma atE_err {α : Type} {l : List α} {n : ℕ} (h : l.length ≤ n) :
    atE l n = Except.error "vector::at: out of range" := by
  unfold atE
  rw [List.get?_eq_none.2 h]

open scoped Classical

/-- `Estimator::prob_ltm` (Estimator.cpp lines 11-36): binary logistic
response probability with guessing floor; early-returns `1 - eps` when the
exponential overflows, otherwise clamps the result into `[eps, 1-eps]`. -/
noncomputable def prob_ltm (E : ExpModel) (s : QuestionSet) (theta : ℝ) (question : ℕ) :
    Except String ℝ := do
  let drow ← atE s.difficulty question
  let difficulty ← atE drow 0
  let disc ← atE s.discrimination question
  let e := E.dexp (difficulty + disc * theta)
  if e = ⊤ then
    pure (1 - eps)
  else do
    let guess ← atE s.guessing question
    let v := e.untop' 0
    let result := guess + (1 - guess) * (v / (1 + v))
    pure (if 1 - eps < result then 1 - eps
          else if result < eps then eps else result)

/-- The boundary-CDF lambda `calculate` inside `Estimator::prob_grm`
(lines 44-58): logistic of `difficulty - discrimination*theta`, overflow
overwritten with `1 - eps`, then clamped by two sequential tests. -/
noncomputable def grmCalc (E : ExpModel) (disc theta diff : ℝ) : ℝ :=
  let e := E.dexp (diff - disc * theta)
  let r0 := if e = ⊤ then 1 - eps else e.untop' 0 / (1 + e.untop' 0)
  let r1 := if 1 - eps < r0 then 1 - eps else r0
  if r1 < eps then eps else r1

/-- The padded boundary sequence `[0, F_1, ..., F_k, 1]` built by
`Estimator::prob_grm` (lines 60-68). -/
noncomputable def paddedCDF (E : ExpModel) (disc theta : ℝ) (cats : List ℝ) : List ℝ :=
  0 :: cats.map (grmCalc E disc theta) ++ [1]

/-- `std::adjacent_find` finds a pair of equal neighbouring elements. -/
def hasAdjDup : List ℝ → Prop
  | [] => False
  | [_] => False
  | a :: b :: t => a = b ∨ hasAdjDup (b :: t)

/-- `Estimator::prob_grm` (lines 38-77): padded boundary CDFs; throws a
domain error when two adjacent entries coincide. -/
noncomputable def prob_grm (E : ExpModel) (s : QuestionSet) (theta : ℝ) (question : ℕ) :
    Except String (List ℝ) := do
  let disc ← atE s.discrimination question
  let cats ← atE s.difficulty question
  let probabilities := paddedCDF E disc theta cats
  if hasAdjDup probabilities then
    Except.error "Theta value too extreme for numerical routines."
  else
    pure probabilities

/-- The running exponent sums of `Estimator::prob_gpcm`:
`s_0 = disc*theta`, `s_i = s_{i-1} + disc*(theta - cat_i)`. -/
def gpcmSums (disc theta : ℝ) (cats : List ℝ) : List ℝ :=
  cats.scanl (fun acc cat => acc + disc * (theta - cat)) (disc * theta)

/-- The unnormalized masses `exp(s_i)` of `Estimator::prob_gpcm`, in the
overflow-aware exponential model. -/
noncomputable def gpcmNums (E : ExpModel) (disc theta : ℝ) (cats : List ℝ) :
    List (WithTop ℝ) :=
  (gpcmSums disc theta cats).map E.dexp

/-- `Estimator::prob_gpcm` (lines 79-112): cumulative-sum-of-exponentials
masses normalized by their total; throws a domain error when the total is
zero or infinite. -/
noncomputable def prob_gpcm (E : ExpModel) (s : QuestionSet) (theta : ℝ) (question : ℕ) :
    Except String (List ℝ) := do
  let disc ← atE s.discrimination question
  let cats ← atE s.difficulty question
  let nums := gpcmNums E disc theta cats
  let denominator := nums.sum
  if denominator = 0 ∨ denominator = ⊤ then
    Except.error "Theta value too extreme for numerical routines."
  else
    pure (nums.map (fun n => n.untop' 0 / denominator.untop' 0))

/-- `Estimator::probability` (lines 218-238): rejects `question >
answers.size()`, then dispatches on the model tag; an unrecognized tag
falls through to the initial empty vector. -/
noncomputable def probability (E : ExpModel) (s : QuestionSet) (theta : ℝ) (question : ℕ) :
    Except String (List ℝ) :=
  if s.answers.length < question then
    Except.error "Must use a question number applicable to Cat object."
  else if s.model = "grm" then prob_grm E s theta question
  else if s.model = "gpcm" then prob_gpcm E s theta question
  else if s.model = "ltm" ∨ s.model = "tpm" then
    (prob_ltm E s theta question).map (fun p => [p])
  else
    Except.ok []

/-- Sequential accumulation `L += term(row)` over a row list, propagating
the first thrown error (the loop shape shared by every likelihood and
derivative aggregate in `Estimator.cpp`). -/
def sumE (f : ℕ → Except String ℝ) : List ℕ → ℝ → Except String ℝ
  | [], acc => Except.ok acc
  | r :: rs, acc =>
    match f r with
    | Except.error e => Except.error e
    | Except.ok t => sumE f rs (acc + t)

/-- Loop body of `Estimator::likelihood_ltm` (lines 270-275), identical in
the `(question, answer)` overload (lines 330-335). -/
noncomputable def ltm_like_term (E : ExpModel) (s : QuestionSet) (theta : ℝ) (r : ℕ) :
    Except String ℝ := do
  let prob ← prob_ltm E s theta r
  let a ← atE s.answers r
  pure ((a : ℝ) * Real.log prob + (1 - (a : ℝ)) * Real.log (1 - prob))

/-- The extra hypothetical term of `Estimator::likelihood_ltm(theta,
question, answer)` (lines 337-338). -/
noncomputable def ltm_like_extra (E : ExpModel) (s : QuestionSet) (theta : ℝ)
    (question : ℕ) (answer : ℤ) : Except String ℝ := do
  let prob ← prob_ltm E s theta question
  pure ((answer : ℝ) * Real.log prob + (1 - (answer : ℝ)) * Real.log (1 - prob))

/-- `Estimator::likelihood_ltm(theta)` (lines 268-277). -/
noncomputable def likelihood_ltm (E : ExpModel) (s : QuestionSet) (theta : ℝ) :
    Except String ℝ := do
  let L ← sumE (ltm_like_term E s theta) s.applicable_rows 0
  pure (Real.exp L)

/-- `Estimator::likelihood_ltm(theta, question, answer)` (lines 328-341). -/
noncomputable def likelihood_ltmQA (E : ExpModel) (s : QuestionSet) (theta : ℝ)
    (question : ℕ) (answer : ℤ) : Except String ℝ := do
  let L ← sumE (ltm_like_term E s theta) s.applicable_rows 0
  let t ← ltm_like_extra E s theta question answer
  pure (Real.exp (L + t))

/-- Loop body of `Estimator::likelihood_grm` (lines 245-250), identical in
the `(question, answer)` overload (lines 299-303). -/
noncomputable def grm_like_term (E : ExpModel) (s : QuestionSet) (theta : ℝ) (r : ℕ) :
    Except String ℝ := do
  let a ← atE s.answers r
  let cdf ← probability E s theta r
  let p1 ← atIntE cdf a
  let p0 ← atIntE cdf (a - 1)
  pure (Real.log (p1 - p0))

/-- The extra hypothetical term of `Estimator::likelihood_grm(theta,
question, answer)` (lines 305-307). -/
noncomputable def grm_like_extra (E : ExpModel) (s : QuestionSet) (theta : ℝ)
    (question : ℕ) (answer : ℤ) : Except String ℝ := do
  let cdf ← probability E s theta question
  let p1 ← atIntE cdf answer
  let p0 ← atIntE cdf (answer - 1)
  pure (Real.log (p1 - p0))

/-- `Estimator::likelihood_grm(theta)` (lines 242-252). -/
noncomputable def likelihood_grm (E : ExpModel) (s : QuestionSet) (theta : ℝ) :
    Except String ℝ := do
  let L ← sumE (grm_like_term E s theta) s.applicable_rows 0
  pure (Real.exp L)

/-- `Estimator::likelihood_grm(theta, question, answer)` (lines 296-310). -/
noncomputable def likelihood_grmQA (E : ExpModel) (s : QuestionSet) (theta : ℝ)
    (question : ℕ) (answer : ℤ) : Except String ℝ := do
  let L ← sumE (grm_like_term E s theta) s.applicable_rows 0
  let t ← grm_like_extra E s theta question answer
  pure (Real.exp (L + t))

/-- Loop body of `Estimator::likelihood_gpcm` (lines 257-263), identical in
the `(question, answer)` overload (lines 315-320). -/
noncomputable def gpcm_like_term (E : ExpModel) (s : QuestionSet) (theta : ℝ) (r : ℕ) :
    Except String ℝ := do
  let a ← atE s.answers r
  let probs ← probability E s theta r
  let p ← atIntE probs (a - 1)
  pure (Real.log p)

/-- The extra hypothetical term of `Estimator::likelihood_gpcm(theta,
question, answer)` (lines 322-323). -/
noncomputable def gpcm_like_extra (E : ExpModel) (s : QuestionSet) (theta : ℝ)
    (question : ℕ) (answer : ℤ) : Except String ℝ := do
  let probs ← probability E s theta question
  let p ← atIntE probs (answer - 1)
  pure (Real.log p)

/-- `Estimator::likelihood_gpcm(theta)` (lines 254-266). -/
noncomputable def likelihood_gpcm (E : ExpModel) (s : QuestionSet) (theta : ℝ) :
    Except String ℝ := do
  let L ← sumE (gpcm_like_term E s theta) s.applicable_rows 0
  pure (Real.exp L)

/-- `Estimator::likelihood_gpcm(theta, question, answer)` (lines 312-326). -/
noncomputable def likelihood_gpcmQA (E : ExpModel) (s : QuestionSet) (theta : ℝ)
    (question : ℕ) (answer : ℤ) : Except String ℝ := do
  let L ← sumE (gpcm_like_term E s theta) s.applicable_rows 0
  let t ← gpcm_like_extra E s theta question answer
  pure (Real.exp (L + t))

/-- `Estimator::likelihood(theta)` (lines 279-293): model dispatch;
an unrecognized tag leaves the initial `0.0`. -/
noncomputable def likelihood (E : ExpModel) (s : QuestionSet) (theta : ℝ) :
    Except String ℝ :=
  if s.model = "ltm" ∨ s.model = "tpm" then likelihood_ltm E s theta
  else if s.model = "grm" then likelihood_grm E s theta
  else if s.model = "gpcm" then likelihood_gpcm E s theta
  else Except.ok 0

/-- `Estimator::likelihood(theta, question, answer)` (lines 343-357). -/
noncomputable def likelihoodQA (E : ExpModel) (s : QuestionSet) (theta : ℝ)
    (question : ℕ) (answer : ℤ) : Except String ℝ :=
  if s.model = "ltm" ∨ s.model = "tpm" then likelihood_ltmQA E s theta question answer
  else if s.model = "grm" then likelihood_grmQA E s theta question answer
  else if s.model = "gpcm" then likelihood_gpcmQA E s theta question answer
  else Except.ok 0

/-- The double exponential read back as a real (finite values unchanged;
used by the gpcm derivative routines, which perform no overflow check). -/
noncomputable def dexpR (E : ExpModel) (x : ℝ) : ℝ := (E.dexp x).untop' 0

/-- The slope factors `x_i = discrimination * (i+1)` accumulated by both
gpcm derivative loops in `Estimator.cpp` (lines 127-146, 174-197). -/
def gpcmXs (disc : ℝ) (n : ℕ) : List ℝ :=
  (List.range n).map (fun i => disc * ((i : ℝ) + 1))

/-- `Estimator::prob_derivs_gpcm_first` (lines 114-157): quotient-rule first
derivatives `(g f_i' - f_i g') / g^2` of the unnormalized gpcm masses. -/
noncomputable def prob_derivs_gpcm_first (E : ExpModel) (s : QuestionSet) (theta : ℝ)
    (question : ℕ) : Except String (List ℝ) := do
  let disc ← atE s.discrimination question
  let cats ← atE s.difficulty question
  let f := (gpcmSums disc theta cats).map (dexpR E)
  let fp := List.zipWith (· * ·) f (gpcmXs disc f.length)
  let g := f.sum
  let gp := fp.sum
  pure (List.zipWith (fun fi fpi => (g * fpi - fi * gp) / (g * g)) f fp)

/-- `Estimator::prob_derivs_gpcm` (lines 160-216): simultaneous first and
second quotient-rule derivatives of the unnormalized gpcm masses. -/
noncomputable def prob_derivs_gpcm (E : ExpModel) (s : QuestionSet) (theta : ℝ)
    (question : ℕ) : Except String (List ℝ × List ℝ) := do
  let disc ← atE s.discrimination question
  let cats ← atE s.difficulty question
  let f := (gpcmSums disc theta cats).map (dexpR E)
  let xs := gpcmXs disc f.length
  let fp := List.zipWith (· * ·) f xs
  let fpp := List.zipWith (· * ·) fp xs
  let g := f.sum
  let gp := fp.sum
  let gpp := fpp.sum
  let b := g * g
  let b2 := b * b
  let bp := 2 * g * gp
  let first := List.zipWith (fun fi fpi => (g * fpi - fi * gp) / b) f fp
  let second := List.zipWith (fun fi (fpifppi : ℝ × ℝ) =>
      (b * (fpifppi.2 * g - gpp * fi) - (g * fpifppi.1 - fi * gp) * bp) / b2)
    f (List.zip fp fpp)
  pure (first, second)

/-- `Estimator::grm_partial_d2LL(theta, question, answer)` (lines 384-402):
boundary-probability weighted second-derivative contribution of one item. -/
noncomputable def grm_partial_d2LL_ans (E : ExpModel) (s : QuestionSet) (theta : ℝ)
    (question : ℕ) (answer : ℤ) : Except String ℝ := do
  let probabilities ← probability E s theta question
  let P_star1 ← atIntE probabilities answer
  let P_star2 ← atIntE probabilities (answer - 1)
  let P := P_star1 - P_star2
  let Q_star1 := 1 - P_star1
  let Q_star2 := 1 - P_star2
  let w2 := P_star2 * Q_star2
  let w1 := P_star1 * Q_star1
  let w := w1 - w2
  pure ((-w2 * (Q_star2 - P_star2) + w1 * (Q_star1 - P_star1)) / P - w ^ 2 / P ^ 2)

/-- `Estimator::gpcm_partial_d2LL(theta, question, answer)` (lines 421-436). -/
noncomputable def gpcm_partial_d2LL_ans (E : ExpModel) (s : QuestionSet) (theta : ℝ)
    (question : ℕ) (answer : ℤ) : Except String ℝ := do
  let probs ← probability E s theta question
  let derivs ← prob_derivs_gpcm E s theta question
  let p ← atIntE probs (answer - 1)
  let p_prime ← atIntE derivs.1 (answer - 1)
  let p_primeprime ← atIntE derivs.2 (answer - 1)
  pure (-(p_prime ^ 2 / p ^ 2 - p_primeprime / p))

/-- `Estimator::gpcm_partial_d1LL(theta, question, answer)` (lines 453-465). -/
noncomputable def gpcm_partial_d1LL_ans (E : ExpModel) (s : QuestionSet) (theta : ℝ)
    (question : ℕ) (answer : ℤ) : Except String ℝ := do
  let probs ← probability E s theta question
  let probs_1d ← prob_derivs_gpcm_first E s theta question
  let p ← atIntE probs (answer - 1)
  let p_prime ← atIntE probs_1d (answer - 1)
  pure (p_prime / p)

/-- Loop body of `Estimator::ltm_d1LL(theta)` (lines 623-628), identical in
the `(question, answer)` overload's loop (lines 635-640). -/
noncomputable def ltm_d1_term (E : ExpModel) (s : QuestionSet) (theta : ℝ) (r : ℕ) :
    Except String ℝ := do
  let P ← prob_ltm E s theta r
  let guess ← atE s.guessing r
  let a ← atE s.answers r
  let disc ← atE s.discrimination r
  pure (disc * ((P - guess) / (P * (1 - guess))) * ((a : ℝ) - P))

/-- The extra hypothetical term of `Estimator::ltm_d1LL(theta, question,
answer)` (lines 643-646). -/
noncomputable def ltm_d1_extra (E : ExpModel) (s : QuestionSet) (theta : ℝ)
    (question : ℕ) (answer : ℤ) : Except String ℝ := do
  let P ← prob_ltm E s theta question
  let guess ← atE s.guessing question
  let disc ← atE s.discrimination question
  pure (disc * ((P - guess) / (P * (1 - guess))) * ((answer : ℝ) - P))

/-- `Estimator::ltm_d1LL(theta)` (lines 621-631). -/
noncomputable def ltm_d1LL (E : ExpModel) (s : QuestionSet) (theta : ℝ) :
    Except String ℝ :=
  sumE (ltm_d1_term E s theta) s.applicable_rows 0

/-- `Estimator::ltm_d1LL(theta, question, answer)` (lines 633-649). -/
noncomputable def ltm_d1LLQA (E : ExpModel) (s : QuestionSet) (theta : ℝ)
    (question : ℕ) (answer : ℤ) : Except String ℝ := do
  let L ← sumE (ltm_d1_term E s theta) s.applicable_rows 0
  let t ← ltm_d1_extra E s theta question answer
  pure (L + t)

/-- Loop body of `Estimator::grm_d1LL(theta)` (lines 579-592), identical in
the `(question, answer)` overload's loop (lines 599-607). -/
noncomputable def grm_d1_term (E : ExpModel) (s : QuestionSet) (theta : ℝ) (r : ℕ) :
    Except String ℝ := do
  let a ← atE s.answers r
  let probabilities ← probability E s theta r
  let P_star1 ← atIntE probabilities a
  let P_star2 ← atIntE probabilities (a - 1)
  let disc ← atE s.discrimination r
  pure (-disc * ((P_star1 * (1 - P_star1) - P_star2 * (1 - P_star2)) / (P_star1 - P_star2)))

/-- The extra hypothetical term of `Estimator::grm_d1LL(theta, question,
answer)` (lines 610-616). -/
noncomputable def grm_d1_extra (E : ExpModel) (s : QuestionSet) (theta : ℝ)
    (question : ℕ) (answer : ℤ) : Except String ℝ := do
  let probabilities ← probability E s theta question
  let P_star1 ← atIntE probabilities answer
  let P_star2 ← atIntE probabilities (answer - 1)
  let disc ← atE s.discrimination question
  pure (-disc * ((P_star1 * (1 - P_star1) - P_star2 * (1 - P_star2)) / (P_star1 - P_star2)))

/-- `Estimator::grm_d1LL(theta)` (lines 577-595). -/
noncomputable def grm_d1LL (E : ExpModel) (s : QuestionSet) (theta : ℝ) :
    Except String ℝ :=
  sumE (grm_d1_term E s theta) s.applicable_rows 0

/-- `Estimator::grm_d1LL(theta, question, answer)` (lines 597-619). -/
noncomputable def grm_d1LLQA (E : ExpModel) (s : QuestionSet) (theta : ℝ)
    (question : ℕ) (answer : ℤ) : Except String ℝ := do
  let L ← sumE (grm_d1_term E s theta) s.applicable_rows 0
  let t ← grm_d1_extra E s theta question answer
  pure (L + t)

/-- Loop body of `Estimator::gpcm_d1LL(theta)` (lines 557-559: answer read
from state, then the partial), identical in the overload's loop (567-570). -/
noncomputable def gpcm_d1_term (E : ExpModel) (s : QuestionSet) (theta : ℝ) (r : ℕ) :
    Except String ℝ := do
  let a ← atE s.answers r
  gpcm_partial_d1LL_ans E s theta r a

/-- `Estimator::gpcm_d1LL(theta)` (lines 554-562). -/
noncomputable def gpcm_d1LL (E : ExpModel) (s : QuestionSet) (theta : ℝ) :
    Except String ℝ :=
  sumE (gpcm_d1_term E s theta) s.applicable_rows 0

/-- `Estimator::gpcm_d1LL(theta, question, answer)` (lines 564-575). -/
noncomputable def gpcm_d1LLQA (E : ExpModel) (s : QuestionSet) (theta : ℝ)
    (question : ℕ) (answer : ℤ) : Except String ℝ := do
  let L ← sumE (gpcm_d1_term E s theta) s.applicable_rows 0
  let t ← gpcm_partial_d1LL_ans E s theta question answer
  pure (L + t)

/-- Loop body of `Estimator::ltm_d2LL(theta)` (lines 519-527): note the
single-state loop writes `disc^2 * lambda_temp^2`. -/
noncomputable def ltm_d2_term (E : ExpModel) (s : QuestionSet) (theta : ℝ) (r : ℕ) :
    Except String ℝ := do
  let P ← prob_ltm E s theta r
  let guess ← atE s.guessing r
  let lambda_temp := (P - guess) / (1 - guess)
  let disc ← atE s.discrimination r
  pure (disc ^ 2 * lambda_temp ^ 2 * ((1 - P) / P))

/-- Loop body of `Estimator::ltm_d2LL(theta, question, answer)` (lines
533-541): the overload's loop writes `(disc * lambda_temp)^2`. -/
noncomputable def ltm_d2_termQA (E : ExpModel) (s : QuestionSet) (theta : ℝ) (r : ℕ) :
    Except String ℝ := do
  let P ← prob_ltm E s theta r
  let guess ← atE s.guessing r
  let lambda_temp := (P - guess) / (1 - guess)
  let disc ← atE s.discrimination r
  pure ((disc * lambda_temp) ^ 2 * ((1 - P) / P))

/-- The extra hypothetical term of `Estimator::ltm_d2LL(theta, question,
answer)` (lines 543-549). -/
noncomputable def ltm_d2_extra (E : ExpModel) (s : QuestionSet) (theta : ℝ)
    (question : ℕ) : Except String ℝ := do
  let P ← prob_ltm E s theta question
  let guess ← atE s.guessing question
  let lambda_temp := (P - guess) / (1 - guess)
  let disc ← atE s.discrimination question
  pure ((disc * lambda_temp) ^ 2 * ((1 - P) / P))

/-- `Estimator::ltm_d2LL(theta)` (lines 517-529). -/
noncomputable def ltm_d2LL (E : ExpModel) (s : QuestionSet) (theta : ℝ) :
    Except String ℝ := do
  let L ← sumE (ltm_d2_term E s theta) s.applicable_rows 0
  pure (-L)

/-- `Estimator::ltm_d2LL(theta, question, answer)` (lines 531-552); the
overload's `answer` parameter is unused in the source, so it is omitted. -/
noncomputable def ltm_d2LLQA (E : ExpModel) (s : QuestionSet) (theta : ℝ)
    (question : ℕ) : Except String ℝ := do
  let L ← sumE (ltm_d2_termQA E s theta) s.applicable_rows 0
  let t ← ltm_d2_extra E s theta question
  pure (-(L + t))

/-- Loop body of `Estimator::grm_d2LL(theta)` (lines 492-497), identical in
the overload's loop (lines 503-508): `disc^2 *` the partial. -/
noncomputable def grm_d2_term (E : ExpModel) (s : QuestionSet) (theta : ℝ) (r : ℕ) :
    Except String ℝ := do
  let disc ← atE s.discrimination r
  let a ← atE s.answers r
  let t ← grm_partial_d2LL_ans E s theta r a
  pure (disc ^ 2 * t)

/-- The extra hypothetical term of `Estimator::grm_d2LL(theta, question,
answer)` (lines 510-512). -/
noncomputable def grm_d2_extra (E : ExpModel) (s : QuestionSet) (theta : ℝ)
    (question : ℕ) (answer : ℤ) : Except String ℝ := do
  let disc ← atE s.discrimination question
  let t ← grm_partial_d2LL_ans E s theta question answer
  pure (disc ^ 2 * t)

/-- `Estimator::grm_d2LL(theta)` (lines 490-499). -/
noncomputable def grm_d2LL (E : ExpModel) (s : QuestionSet) (theta : ℝ) :
    Except String ℝ :=
  sumE (grm_d2_term E s theta) s.applicable_rows 0

/-- `Estimator::grm_d2LL(theta, question, answer)` (lines 501-515). -/
noncomputable def grm_d2LLQA (E : ExpModel) (s : QuestionSet) (theta : ℝ)
    (question : ℕ) (answer : ℤ) : Except String ℝ := do
  let L ← sumE (grm_d2_term E s theta) s.applicable_rows 0
  let t ← grm_d2_extra E s theta question answer
  pure (L + t)

/-- Loop body of `Estimator::gpcm_d2LL(theta)` (lines 470-472), identical
in the overload's loop (lines 480-483). -/
noncomputable def gpcm_d2_term (E : ExpModel) (s : QuestionSet) (theta : ℝ) (r : ℕ) :
    Except String ℝ := do
  let a ← atE s.answers r
  gpcm_partial_d2LL_ans E s theta r a

/-- `Estimator::gpcm_d2LL(theta)` (lines 467-475). -/
noncomputable def gpcm_d2LL (E : ExpModel) (s : QuestionSet) (theta : ℝ) :
    Except String ℝ :=
  sumE (gpcm_d2_term E s theta) s.applicable_rows 0

/-- `Estimator::gpcm_d2LL(theta, question, answer)` (lines 477-488). -/
noncomputable def gpcm_d2LLQA (E : ExpModel) (s : QuestionSet) (theta : ℝ)
    (question : ℕ) (answer : ℤ) : Except String ℝ := do
  let L ← sumE (gpcm_d2_term E s theta) s.applicable_rows 0
  let t ← gpcm_partial_d2LL_ans E s theta question answer
  pure (L + t)

/-- `Estimator::d1LL(theta, use_prior, prior)` (lines 652-670): empty row
set short-circuits to `+(theta - param0)/param1^2` regardless of the flag;
otherwise the model dispatch, minus the prior shift when requested. -/
noncomputable def d1LL (E : ExpModel) (s : QuestionSet) (theta : ℝ) (use_prior : Bool)
    (prior : Prior) : Except String ℝ :=
  let prior_shift := (theta - prior.param0) / prior.param1 ^ 2
  if s.applicable_rows = [] then Except.ok prior_shift
  else do
    let l ← if s.model = "ltm" ∨ s.model = "tpm" then ltm_d1LL E s theta
            else if s.model = "grm" then grm_d1LL E s theta
            else if s.model = "gpcm" then gpcm_d1LL E s theta
            else Except.ok 0
    pure (if use_prior then l - prior_shift else l)

/-- `Estimator::d1LL(theta, use_prior, prior, question, answer)`
(lines 672-690). -/
noncomputable def d1LLQA (E : ExpModel) (s : QuestionSet) (theta : ℝ) (use_prior : Bool)
    (prior : Prior) (question : ℕ) (answer : ℤ) : Except String ℝ := do
  let l ← if s.model = "ltm" ∨ s.model = "tpm" then ltm_d1LLQA E s theta question answer
          else if s.model = "grm" then grm_d1LLQA E s theta question answer
          else if s.model = "gpcm" then gpcm_d1LLQA E s theta question answer
          else Except.ok 0
  pure (if use_prior then l - (theta - prior.param0) / prior.param1 ^ 2 else l)

/-- `Estimator::d2LL(theta, use_prior, prior)` (lines 692-709): empty row
set short-circuits to `-1/param1^2`. -/
noncomputable def d2LL (E : ExpModel) (s : QuestionSet) (theta : ℝ) (use_prior : Bool)
    (prior : Prior) : Except String ℝ :=
  let prior_shift := 1 / prior.param1 ^ 2
  if s.applicable_rows = [] then Except.ok (-prior_shift)
  else do
    let l ← if s.model = "ltm" ∨ s.model = "tpm" then ltm_d2LL E s theta
            else if s.model = "grm" then grm_d2LL E s theta
            else if s.model = "gpcm" then gpcm_d2LL E s theta
            else Except.ok 0
    pure (if use_prior then l - prior_shift else l)

/-- `Estimator::d2LL(theta, use_prior, prior, question, answer)`
(lines 711-729). -/
noncomputable def d2LLQA (E : ExpModel) (s : QuestionSet) (theta : ℝ) (use_prior : Bool)
    (prior : Prior) (question : ℕ) (answer : ℤ) : Except String ℝ := do
  let l ← if s.model = "ltm" ∨ s.model = "tpm" then ltm_d2LLQA E s theta question
          else if s.model = "grm" then grm_d2LLQA E s theta question answer
          else if s.model = "gpcm" then gpcm_d2LLQA E s theta question answer
          else Except.ok 0
  pure (if use_prior then l - 1 / prior.param1 ^ 2 else l)

/-- Modelled from the spec: the theta point-estimation strategy
(`estimateTheta`/`estimateSE`, §4.3 of the spec) is implemented outside
`Estimator.cpp` (root-finding or EAP quadrature over external numerical
primitives).  It reads the QuestionSet and the prior, mutates nothing, and
may propagate a numeric-domain error raised while evaluating the
likelihood (§7). -/
structure EstModel where
  estimateTheta : QuestionSet → Prior → Except String ℝ
  estimateSE : QuestionSet → Prior → Except String ℝ

/-- The state reached by pushing `item` onto `applicable_rows`
(the transient what-if mutation). -/
def pushRow (s : QuestionSet) (item : ℕ) : QuestionSet :=
  { s with applicable_rows := s.applicable_rows ++ [item] }

/-- The state reached by `questionSet.answers.at(item) = v`. -/
def setAnswer (s : QuestionSet) (item : ℕ) (v : ℤ) : QuestionSet :=
  { s with answers := s.answers.set item v }

/-- The hypothetical-answer loop of
`Estimator::polytomous_posterior_variance` (lines 741-744): for each
candidate answer value, overwrite `answers[item]`, compute `estimateSE^2`.
An error thrown by the estimator escapes with the mutated state. -/
def pvLoop (M : EstModel) (prior : Prior) (item : ℕ) :
    List ℤ → QuestionSet → List ℝ → Except String (List ℝ) × QuestionSet
  | [], s, acc => (Except.ok acc.reverse, s)
  | v :: vs, s, acc =>
    let s' := setAnswer s item v
    match M.estimateSE s' prior with
    | Except.error e => (Except.error e, s')
    | Except.ok se => pvLoop M prior item vs s' (se ^ 2 :: acc)

/-- Consecutive differences of a list (the grm category masses obtained
from the padded CDF). -/
def diffs (l : List ℝ) : List ℝ :=
  (l.zip l.tail).map (fun p => p.2 - p.1)

/-- `Estimator::polytomous_posterior_variance` (lines 735-760): pushes the
item, loops over hypothetical answers, combines the variances weighted by
predicted category mass, pops the item.  The pop only happens on the
normal-return path. -/
noncomputable def polytomous_posterior_variance (E : ExpModel) (M : EstModel)
    (s : QuestionSet) (item : ℕ) (prior : Prior) : Except String ℝ × QuestionSet :=
  match M.estimateTheta s prior with
  | Except.error e => (Except.error e, s)
  | Except.ok theta =>
    match probability E s theta item with
    | Except.error e => (Except.error e, s)
    | Except.ok probabilities =>
      let s1 := pushRow s item
      match atE s1.difficulty item with
      | Except.error e => (Except.error e, s1)
      | Except.ok cats =>
        let vals := (List.range (cats.length + 1)).map (fun i => ((i : ℤ) + 1))
        match pvLoop M prior item vals s1 [] with
        | (Except.error e, s') => (Except.error e, s')
        | (Except.ok variances, s2) =>
          let sum :=
            if s.model = "grm" then
              (List.zipWith (· * ·) variances (diffs probabilities)).sum
            else if s.model = "gpcm" then
              (List.zipWith (· * ·) variances probabilities).sum
            else 0
          (Except.ok sum, { s2 with applicable_rows := s2.applicable_rows.dropLast })

/-- `Estimator::binary_posterior_variance` (lines 762-776). -/
noncomputable def binary_posterior_variance (E : ExpModel) (M : EstModel)
    (s : QuestionSet) (item : ℕ) (prior : Prior) : Except String ℝ × QuestionSet :=
  match M.estimateTheta s prior with
  | Except.error e => (Except.error e, s)
  | Except.ok theta =>
    match prob_ltm E s theta item with
    | Except.error e => (Except.error e, s)
    | Except.ok probability_incorrect =>
      let s1 := pushRow s item
      let s2 := setAnswer s1 item 1
      match M.estimateSE s2 prior with
      | Except.error e => (Except.error e, s2)
      | Except.ok se1 =>
        let s3 := setAnswer s2 item 0
        match M.estimateSE s3 prior with
        | Except.error e => (Except.error e, s3)
        | Except.ok se0 =>
          (Except.ok (probability_incorrect * se1 ^ 2 +
              (1 - probability_incorrect) * se0 ^ 2),
           { s3 with applicable_rows := s3.applicable_rows.dropLast })

/-- `Estimator::expectedPV` (lines 778-793): model dispatch, then
`answers.at(item) = NA_INTEGER` on the normal-return path only (a thrown
error escapes before the reset). -/
noncomputable def expectedPV (E : ExpModel) (M : EstModel) (s : QuestionSet)
    (item : ℕ) (prior : Prior) : Except String ℝ × QuestionSet :=
  let step :=
    if s.model = "ltm" ∨ s.model = "tpm" then binary_posterior_variance E M s item prior
    else if s.model = "grm" then polytomous_posterior_variance E M s item prior
    else if s.model = "gpcm" then polytomous_posterior_variance E M s item prior
    else (Except.ok 0, s)
  match step with
  | (Except.error e, s') => (Except.error e, s')
  | (Except.ok v, s') =>
    if item < s'.answers.length then (Except.ok v, setAnswer s' item NA_INTEGER)
    else (Except.error "vector::at: out of range", s')

/-- The `Selection` value object returned by a selector. -/
structure Selection where
  item : ℤ
  values : List ℝ
  question_names : List String
  name : String

/-- The scan loop of `MFIISelector::selectItem` (MFIISelector.cpp lines
16-28): running maximum starts at `0.0` with sentinel item `-1`; strict
`>` comparison. -/
noncomputable def mfiiLoop (score : ℕ → ℝ) : List ℕ → ℝ → ℤ → ℤ
  | [], _, max_item => max_item
  | c :: cs, max_mfii, max_item =>
    if max_mfii < score c then mfiiLoop score cs (score c) (c : ℤ)
    else mfiiLoop score cs max_mfii max_item

/-- `MFIISelector::selectItem` (MFIISelector.cpp lines 9-34), parametric
over the per-candidate score `question ↦ estimator.fii(question, prior)`
(whose value is produced by the external quadrature primitive). -/
noncomputable def selectItem (s : QuestionSet) (score : ℕ → ℝ) : Selection :=
  { name := "MFII"
    values := s.nonapplicable_rows.map score
    question_names := s.nonapplicable_rows.map (fun q => s.question_names.getD q "")
    item := mfiiLoop score s.nonapplicable_rows 0 (-1) }

/-! ### Helper lemmas and concrete instances -/

@[simp] lemma ok_bind {α β : Type} (a : α) (f : α → Except String β) :
    (Except.ok a : Except String α) >>= f = f a := rfl

@[simp] lemma err_bind {α β : Type} (e : String) (f : α → Except String β) :
    (Except.error e : Except String α) >>= f = Except.error e := rfl

@[simp] lemma pure_eq_ok {α : Type} (a : α) :
    (pure a : Except String α) = Except.ok a := rfl

lemma atE_of_get? {α : Type} {l : List α} {n : ℕ} {a : α} (h : l.get? n = some a) :
    atE l n = Except.ok a := by
  unfold atE
  rw [h]

/-- A constant finite exponential model (used for concrete evaluations). -/
noncomputable def oneExp : ExpModel where
  dexp := fun _ => ((1:ℝ) : WithTop ℝ)
  pos := fun _ => by
    show (0 : WithTop ℝ) < ((1:ℝ) : WithTop ℝ)
    exact_mod_cast (zero_lt_one : (0:ℝ) < 1)
  mono := fun _ _ _ => le_rfl

/-- An always-overflowing exponential model (used for concrete evaluations
of the overflow branches). -/
def topExp : ExpModel where
  dexp := fun _ => ⊤
  pos := fun _ => lt_top_iff_ne_top.mpr (by simp)
  mono := monotone_const

/-- A one-item binary (`ltm`) question set: discrimination 1, difficulty 0,
no guessing, unanswered. -/
def ltmQS : QuestionSet :=
  { model := "ltm", discrimination := [1], difficulty := [[0]], guessing := [0],
    answers := [NA_INTEGER], applicable_rows := [], nonapplicable_rows := [0],
    question_names := ["q1"], lowerBound := -5, upperBound := 5, z := [1] }

/-- The same item under an unrecognized model tag. -/
def xyzQS : QuestionSet := { ltmQS with model := "xyz" }

/-- The same item under the `grm` tag. -/
def grmQS : QuestionSet := { ltmQS with model := "grm" }

/-- The same item under the `gpcm` tag. -/
def gpcmQS : QuestionSet := { ltmQS with model := "gpcm" }

/-! ### C4: derivatives on an empty applicable-row set -/

/-- C4 (amended): with `applicable_rows` empty, `d1LL` returns
`+(theta - param0)/param1^2` (for both values of `use_prior`) and `d2LL`
returns `-1/param1^2`. -/
theorem d1LL_d2LL_empty_rows (E : ExpModel) (s : QuestionSet) (theta : ℝ)
    (use_prior : Bool) (prior : Prior) (h : s.applicable_rows = []) :
    d1LL E s theta use_prior prior =
      Except.ok ((theta - prior.param0) / prior.param1 ^ 2) ∧
    d2LL E s theta use_prior prior = Except.ok (-(1 / prior.param1 ^ 2)) := by
  unfold d1LL d2LL
  rw [if_pos h, if_pos h]
  exact ⟨rfl, rfl⟩

/-- Witness for `d1LL_d2LL_empty_rows` at a concrete state. -/
theorem d1LL_d2LL_empty_rows_witness :
    d1LL oneExp ltmQS 1 true ⟨0, 1⟩ = Except.ok ((1 - 0) / 1 ^ 2) ∧
    d2LL oneExp ltmQS 1 true ⟨0, 1⟩ = Except.ok (-(1 / 1 ^ 2)) :=
  d1LL_d2LL_empty_rows oneExp ltmQS 1 true ⟨0, 1⟩ rfl

/-- C4 counterexample: at `theta = 1`, `param0 = 0`, `param1 = 1` with no
answered items, `d1LL` returns `+1`, not the claimed `-(theta -
param0)/param1^2 = -1`. -/
theorem d1LL_empty_rows_sign_counterexample :
    d1LL oneExp ltmQS 1 true ⟨0, 1⟩ = Except.ok 1 ∧ (1 : ℝ) ≠ -1 := by
  constructor
  · have h : ltmQS.applicable_rows = [] := rfl
    unfold d1LL
    rw [if_pos h]
    norm_num
  · norm_num

/-! ### C10: unrecognized model tag -/

/-- C10: with a model tag outside {ltm, tpm, grm, gpcm}, `probability`
returns the initial empty vector (for any in-bounds question) and
`likelihood` returns `0.0`; no error is raised. -/
theorem unknown_model_prob_likelihood (E : ExpModel) (s : QuestionSet) (theta : ℝ)
    (q : ℕ) (h1 : s.model ≠ "ltm") (h2 : s.model ≠ "tpm") (h3 : s.model ≠ "grm")
    (h4 : s.model ≠ "gpcm") (hq : q ≤ s.answers.length) :
    probability E s theta q = Except.ok [] ∧ likelihood E s theta = Except.ok 0 := by
  constructor
  · unfold probability
    rw [if_neg (not_lt.2 hq), if_neg h3, if_neg h4, if_neg (by simp [h1, h2])]
  · unfold likelihood
    rw [if_neg (by simp [h1, h2]), if_neg h3, if_neg h4]

/-- Witness for `unknown_model_prob_likelihood` at the tag "xyz". -/
theorem unknown_model_prob_likelihood_witness :
    probability oneExp xyzQS 0 0 = Except.ok [] ∧
    likelihood oneExp xyzQS 0 = Except.ok 0 :=
  unknown_model_prob_likelihood oneExp xyzQS 0 0 (by decide) (by decide) (by decide)
    (by decide) (by simp [xyzQS, ltmQS])

/-! ### C8: out-of-range item id -/

/-- C8: for any of the four model tags and an item id at or past the end of
the parallel arrays, `probability` fails with an error: ids strictly past
`answers.size()` hit the explicit precondition check, and the boundary id
equal to the size escapes that check but is caught by the checked
`vector::at` access inside the model-specific routine. -/
theorem probability_out_of_range (E : ExpModel) (s : QuestionSet) (theta : ℝ) (q : ℕ)
    (hmodel : s.model = "ltm" ∨ s.model = "tpm" ∨ s.model = "grm" ∨ s.model = "gpcm")
    (ha : s.answers.length ≤ q) (hd : s.difficulty.length ≤ q)
    (hc : s.discrimination.length ≤ q) :
    ∃ msg, probability E s theta q = Except.error msg := by
  unfold probability
  by_cases hlt : s.answers.length < q
  · exact ⟨_, by rw [if_pos hlt]⟩
  · rw [if_neg hlt]
    rcases hmodel with h | h | h | h
    · refine ⟨"vector::at: out of range", ?_⟩
      rw [if_neg (by simp [h]), if_neg (by simp [h]), if_pos (Or.inl h)]
      unfold prob_ltm
      rw [atE_err hd]
      rfl
    · refine ⟨"vector::at: out of range", ?_⟩
      rw [if_neg (by simp [h]), if_neg (by simp [h]), if_pos (Or.inr h)]
      unfold prob_ltm
      rw [atE_err hd]
      rfl
    · refine ⟨"vector::at: out of range", ?_⟩
      rw [if_pos h]
      unfold prob_grm
      rw [atE_err hc]
      rfl
    · refine ⟨"vector::at: out of range", ?_⟩
      rw [if_neg (by simp [h]), if_pos h]
      unfold prob_gpcm
      rw [atE_err hc]
      rfl

/-- Witness for `probability_out_of_range`: the boundary id `q = size`. -/
theorem probability_out_of_range_witness :
    ∃ msg, probability oneExp ltmQS 0 1 = Except.error msg :=
  probability_out_of_range oneExp ltmQS 0 1 (Or.inl rfl) (by simp [ltmQS])
    (by simp [ltmQS]) (by simp [ltmQS])

/-! ### C7: eps-clamping of the binary probability and the grm boundaries -/

/-- The `if/else if` clamp of `prob_ltm` lands in `[eps, 1-eps]`. -/
lemma clamp_bounds (r : ℝ) :
    eps ≤ (if 1 - eps < r then 1 - eps else if r < eps then eps else r) ∧
    (if 1 - eps < r then 1 - eps else if r < eps then eps else r) ≤ 1 - eps := by
  split_ifs with h1 h2 <;> constructor <;> linarith [eps_le_one_sub_eps, eps_pos]

/-- The grm boundary lambda lands in `[eps, 1-eps]` for every input. -/
lemma grmCalc_bounds (E : ExpModel) (disc theta diff : ℝ) :
    eps ≤ grmCalc E disc theta diff ∧ grmCalc E disc theta diff ≤ 1 - eps := by
  unfold grmCalc
  dsimp only
  split_ifs <;> constructor <;> linarith [eps_le_one_sub_eps, eps_pos]

/-- Whenever `prob_ltm` returns, its value lies in `[eps, 1-eps]`. -/
lemma prob_ltm_ok_mem {E : ExpModel} {s : QuestionSet} {theta : ℝ} {q : ℕ} {p : ℝ}
    (h : prob_ltm E s theta q = Except.ok p) : eps ≤ p ∧ p ≤ 1 - eps := by
  unfold prob_ltm at h
  rcases h1 : atE s.difficulty q with msg | drow
  · rw [h1] at h; simp at h
  rw [h1] at h; simp only [ok_bind] at h
  rcases h2 : atE drow 0 with msg | diff
  · rw [h2] at h; simp at h
  rw [h2] at h; simp only [ok_bind] at h
  rcases h3 : atE s.discrimination q with msg | disc
  · rw [h3] at h; simp at h
  rw [h3] at h; simp only [ok_bind] at h
  by_cases he : E.dexp (diff + disc * theta) = ⊤
  · rw [if_pos he] at h
    simp only [pure_eq_ok, Except.ok.injEq] at h
    subst h
    exact ⟨eps_le_one_sub_eps, le_refl _⟩
  · rw [if_neg he] at h
    rcases h4 : atE s.guessing q with msg | guess
    · rw [h4] at h; simp at h
    rw [h4] at h; simp only [ok_bind, pure_eq_ok, Except.ok.injEq] at h
    subst h
    exact clamp_bounds _

/-- C7: `prob_ltm` always lands in `[eps, 1-eps]`; in particular the
overflow branch returns exactly `1 - eps`; the grm boundary CDF values are
clamped into the same interval. -/
theorem prob_ltm_clamped (E : ExpModel) (s : QuestionSet) (theta : ℝ) (q : ℕ) :
    (∀ p, prob_ltm E s theta q = Except.ok p → eps ≤ p ∧ p ≤ 1 - eps) ∧
    (∀ drow diff disc, s.difficulty.get? q = some drow → drow.get? 0 = some diff →
      s.discrimination.get? q = some disc → E.dexp (diff + disc * theta) = ⊤ →
      prob_ltm E s theta q = Except.ok (1 - eps)) ∧
    (∀ disc diff, eps ≤ grmCalc E disc theta diff ∧ grmCalc E disc theta diff ≤ 1 - eps) := by
  refine ⟨fun p h => prob_ltm_ok_mem h, fun drow diff disc hd h0 hc he => ?_,
    fun disc diff => grmCalc_bounds E disc theta diff⟩
  unfold prob_ltm
  rw [atE_of_get? hd]
  simp only [ok_bind]
  rw [atE_of_get? h0]
  simp only [ok_bind]
  rw [atE_of_get? hc]
  simp only [ok_bind]
  rw [if_pos he]
  rfl

/-- Witness for `prob_ltm_clamped`: with an overflowing exponential the
result is exactly `1 - eps`. -/
theorem prob_ltm_clamped_witness :
    prob_ltm topExp ltmQS 0 0 = Except.ok (1 - eps) :=
  (prob_ltm_clamped topExp ltmQS 0 0).2.1 [0] 0 1 rfl rfl rfl rfl

/-! ### C9: monotonicity of the binary probability in theta -/

/-- The `prob_ltm` clamp is monotone. -/
lemma clamp_mono {x y : ℝ} (h : x ≤ y) :
    (if 1 - eps < x then 1 - eps else if x < eps then eps else x) ≤
    (if 1 - eps < y then 1 - eps else if y < eps then eps else y) := by
  split_ifs <;> linarith [eps_le_one_sub_eps, eps_pos]

/-- A non-overflowed exponential value is a positive real. -/
lemma dexp_finite (E : ExpModel) (x : ℝ) (h : E.dexp x ≠ ⊤) :
    E.dexp x = ((E.dexp x).untop' 0 : ℝ) ∧ 0 < (E.dexp x).untop' 0 := by
  obtain ⟨v, hv⟩ := WithTop.ne_top_iff_exists.1 h
  have huv : (E.dexp x).untop' 0 = v := by rw [← hv, WithTop.untop'_coe]
  have hp := E.pos x
  rw [← hv] at hp
  rw [huv, ← hv]
  exact ⟨rfl, by exact_mod_cast hp⟩

/-- C9: for discrimination > 0, `prob_ltm` is non-decreasing in theta —
through the overflow branch and the clamps. -/
theorem prob_ltm_monotone (E : ExpModel) (s : QuestionSet) (q : ℕ) (disc : ℝ)
    (theta1 theta2 p1 p2 : ℝ)
    (hdisc : s.discrimination.get? q = some disc) (hpos : 0 < disc)
    (hth : theta1 ≤ theta2)
    (h1 : prob_ltm E s theta1 q = Except.ok p1)
    (h2 : prob_ltm E s theta2 q = Except.ok p2) : p1 ≤ p2 := by
  have hb1 := prob_ltm_ok_mem h1
  unfold prob_ltm at h1 h2
  rcases hd : atE s.difficulty q with msg | drow
  · rw [hd] at h1; simp at h1
  rw [hd] at h1 h2; simp only [ok_bind] at h1 h2
  rcases hd0 : atE drow 0 with msg | diff
  · rw [hd0] at h1; simp at h1
  rw [hd0] at h1 h2; simp only [ok_bind] at h1 h2
  rw [atE_of_get? hdisc] at h1 h2; simp only [ok_bind] at h1 h2
  have hz : diff + disc * theta1 ≤ diff + disc * theta2 := by nlinarith
  by_cases e1 : E.dexp (diff + disc * theta1) = ⊤
  · have e2 : E.dexp (diff + disc * theta2) = ⊤ := by
      have := E.mono hz
      rw [e1] at this
      exact top_le_iff.1 this
    rw [if_pos e1] at h1
    rw [if_pos e2] at h2
    simp only [pure_eq_ok, Except.ok.injEq] at h1 h2
    rw [← h1, ← h2]
  · by_cases e2 : E.dexp (diff + disc * theta2) = ⊤
    · rw [if_pos e2] at h2
      simp only [pure_eq_ok, Except.ok.injEq] at h2
      rw [← h2]
      exact hb1.2
    · rw [if_neg e1] at h1
      rw [if_neg e2] at h2
      rcases hg : atE s.guessing q with msg | guess
      · rw [hg] at h1; simp at h1
      rw [hg] at h1 h2
      simp only [ok_bind, pure_eq_ok, Except.ok.injEq] at h1 h2
      obtain ⟨-, hv1⟩ := dexp_finite E _ e1
      obtain ⟨-, hv2⟩ := dexp_finite E _ e2
      set v1 := (E.dexp (diff + disc * theta1)).untop' 0 with hv1def
      set v2 := (E.dexp (diff + disc * theta2)).untop' 0 with hv2def
      have hvle : v1 ≤ v2 := by
        have hm := E.mono hz
        rw [(dexp_finite E _ e1).1, (dexp_finite E _ e2).1] at hm
        exact_mod_cast hm
      have hsig : v1 / (1 + v1) ≤ v2 / (1 + v2) := by
        rw [div_le_div_iff (by linarith) (by linarith)]
        nlinarith
      by_cases hgle : guess ≤ 1
      · have hr : guess + (1 - guess) * (v1 / (1 + v1)) ≤
            guess + (1 - guess) * (v2 / (1 + v2)) := by nlinarith
        rw [← h1, ← h2]
        exact clamp_mono hr
      · have hs2 : v2 / (1 + v2) < 1 := by
          rw [div_lt_one (by linarith)]
          linarith
        have hr2 : 1 - eps < guess + (1 - guess) * (v2 / (1 + v2)) := by
          nlinarith [eps_pos]
        rw [← h2, if_pos hr2, ← h1]
        exact (clamp_bounds _).2

/-- Concrete evaluation: with the constant-one exponential model, the
binary probability of the unit item is `1/2` at every theta. -/
lemma prob_ltm_oneExp_eval (theta : ℝ) :
    prob_ltm oneExp ltmQS theta 0 = Except.ok (1/2) := by
  unfold prob_ltm
  rw [atE_of_get? (show ltmQS.difficulty.get? 0 = some [0] from rfl)]
  simp only [ok_bind]
  rw [atE_of_get? (show ([0] : List ℝ).get? 0 = some 0 from rfl)]
  simp only [ok_bind]
  rw [atE_of_get? (show ltmQS.discrimination.get? 0 = some 1 from rfl)]
  simp only [ok_bind]
  rw [if_neg (show ¬(oneExp.dexp (0 + 1 * theta) = ⊤) from by simp [oneExp])]
  rw [atE_of_get? (show ltmQS.guessing.get? 0 = some 0 from rfl)]
  simp only [ok_bind, pure_eq_ok]
  have huntop : (oneExp.dexp (0 + 1 * theta)).untop' 0 = 1 := by
    simp [oneExp]
  rw [huntop]
  norm_num
  rw [if_neg (by linarith [eps_lt_half]), if_neg (by linarith [eps_lt_half, eps_pos])]

/-- Witness for `prob_ltm_monotone` at concrete inputs. -/
theorem prob_ltm_monotone_witness : (1/2 : ℝ) ≤ 1/2 :=
  prob_ltm_monotone oneExp ltmQS 0 1 0 1 (1/2) (1/2) rfl one_pos zero_le_one
    (prob_ltm_oneExp_eval 0) (prob_ltm_oneExp_eval 1)

/-! ### C3: error conditions of the polytomous probability routines -/

@[simp] lemma map_ok {α β : Type} (f : α → β) (a : α) :
    Except.map f (Except.ok a : Except String α) = Except.ok (f a) := rfl

@[simp] lemma map_err {α β : Type} (f : α → β) (e : String) :
    Except.map f (Except.error e : Except String α) = Except.error e := rfl

/-- C3: `prob_grm` throws the domain error exactly when the padded CDF
sequence has two equal adjacent entries, and `prob_gpcm` throws it exactly
when the normalizing total of the exponentials is zero or infinite; in the
remaining cases they return their sequences. -/
theorem prob_error_conditions (E : ExpModel) (s : QuestionSet) (theta : ℝ) (q : ℕ)
    (disc : ℝ) (cats : List ℝ)
    (hdisc : s.discrimination.get? q = some disc)
    (hcats : s.difficulty.get? q = some cats) :
    ((∃ msg, prob_grm E s theta q = Except.error msg) ↔
        hasAdjDup (paddedCDF E disc theta cats)) ∧
    (¬ hasAdjDup (paddedCDF E disc theta cats) →
        prob_grm E s theta q = Except.ok (paddedCDF E disc theta cats)) ∧
    ((∃ msg, prob_gpcm E s theta q = Except.error msg) ↔
        ((gpcmNums E disc theta cats).sum = 0 ∨ (gpcmNums E disc theta cats).sum = ⊤)) ∧
    (¬ ((gpcmNums E disc theta cats).sum = 0 ∨ (gpcmNums E disc theta cats).sum = ⊤) →
        prob_gpcm E s theta q = Except.ok ((gpcmNums E disc theta cats).map
          (fun n => n.untop' 0 / ((gpcmNums E disc theta cats).sum.untop' 0)))) := by
  have hg : prob_grm E s theta q =
      if hasAdjDup (paddedCDF E disc theta cats) then
        Except.error "Theta value too extreme for numerical routines."
      else Except.ok (paddedCDF E disc theta cats) := by
    unfold prob_grm
    rw [atE_of_get? hdisc]
    simp only [ok_bind]
    rw [atE_of_get? hcats]
    simp only [ok_bind]
    rfl
  have hp : prob_gpcm E s theta q =
      if (gpcmNums E disc theta cats).sum = 0 ∨ (gpcmNums E disc theta cats).sum = ⊤ then
        Except.error "Theta value too extreme for numerical routines."
      else Except.ok ((gpcmNums E disc theta cats).map
        (fun n => n.untop' 0 / ((gpcmNums E disc theta cats).sum.untop' 0))) := by
    unfold prob_gpcm
    rw [atE_of_get? hdisc]
    simp only [ok_bind]
    rw [atE_of_get? hcats]
    simp only [ok_bind]
    rfl
  refine ⟨?_, ?_, ?_, ?_⟩
  · rw [hg]
    by_cases h : hasAdjDup (paddedCDF E disc theta cats)
    · rw [if_pos h]
      exact ⟨fun _ => h, fun _ => ⟨_, rfl⟩⟩
    · rw [if_neg h]
      exact ⟨fun ⟨msg, hmsg⟩ => absurd hmsg (by simp), fun hc => absurd hc h⟩
  · intro h
    rw [hg, if_neg h]
  · rw [hp]
    by_cases h : (gpcmNums E disc theta cats).sum = 0 ∨ (gpcmNums E disc theta cats).sum = ⊤
    · rw [if_pos h]
      exact ⟨fun _ => h, fun _ => ⟨_, rfl⟩⟩
    · rw [if_neg h]
      exact ⟨fun ⟨msg, hmsg⟩ => absurd hmsg (by simp), fun hc => absurd hc h⟩
  · intro h
    rw [hp, if_neg h]

/-- Concrete evaluation of the grm boundary lambda in the constant-one
exponential model. -/
lemma grmCalc_oneExp (disc theta diff : ℝ) : grmCalc oneExp disc theta diff = 1/2 := by
  unfold grmCalc
  dsimp only
  rw [if_neg (show ¬(oneExp.dexp (diff - disc * theta) = ⊤) from by simp [oneExp])]
  have huntop : (oneExp.dexp (diff - disc * theta)).untop' 0 = 1 := by simp [oneExp]
  rw [huntop]
  norm_num
  have hA : ¬(1 - eps < (1:ℝ)/2) := by linarith [eps_lt_half]
  rw [if_neg hA]
  rw [if_neg (show ¬((1:ℝ)/2 < eps) from by linarith [eps_lt_half])]

/-- The padded CDF of the unit grm item in the constant-one model. -/
lemma paddedCDF_oneExp : paddedCDF oneExp 1 0 [0] = [0, 1/2, 1] := by
  simp [paddedCDF, grmCalc_oneExp]

/-- The gpcm exponential masses of the unit item in the constant-one
model. -/
lemma gpcmNums_oneExp : gpcmNums oneExp 1 0 [0] = [((1:ℝ) : WithTop ℝ), ((1:ℝ) : WithTop ℝ)] := by
  simp [gpcmNums, gpcmSums, oneExp, List.scanl]

/-- Witness for `prob_error_conditions` on the unit items: no error is
raised and the sequences are returned. -/
theorem prob_error_conditions_witness :
    prob_grm oneExp grmQS 0 0 = Except.ok (paddedCDF oneExp 1 0 [0]) ∧
    prob_gpcm oneExp gpcmQS 0 0 = Except.ok ((gpcmNums oneExp 1 0 [0]).map
      (fun n => n.untop' 0 / ((gpcmNums oneExp 1 0 [0]).sum.untop' 0))) := by
  constructor
  · refine (prob_error_conditions oneExp grmQS 0 0 1 [0] rfl rfl).2.1 ?_
    rw [paddedCDF_oneExp]
    simp only [hasAdjDup]
    norm_num
  · refine (prob_error_conditions oneExp gpcmQS 0 0 1 [0] rfl rfl).2.2.2 ?_
    rw [gpcmNums_oneExp]
    have hsum : ([((1:ℝ) : WithTop ℝ), ((1:ℝ) : WithTop ℝ)]).sum = ((2:ℝ) : WithTop ℝ) := by
      simp [← WithTop.coe_add]
      norm_num
    rw [hsum]
    rintro (hc | hc)
    · rw [show ((0 : WithTop ℝ)) = ((0:ℝ) : WithTop ℝ) from rfl] at hc
      have h2 : (2:ℝ) = 0 := by exact_mod_cast hc
      norm_num at h2
    · exact absurd hc (by simp)

/-! ### C2: structure and bounds of the returned probability sequences -/

lemma diffs_cons (a b : ℝ) (l : List ℝ) :
    diffs (a :: b :: l) = (b - a) :: diffs (b :: l) := rfl

/-- Telescoping: the consecutive differences of `a :: l ++ [b]` sum to
`b - a`. -/
lemma diffs_sum_aux (a b : ℝ) (l : List ℝ) : (diffs (a :: (l ++ [b]))).sum = b - a := by
  induction l generalizing a with
  | nil => simp [diffs]
  | cons c t ih =>
    rw [List.cons_append, diffs_cons, List.sum_cons, ih c]
    ring

lemma coe_untop'_of_ne_top {x : WithTop ℝ} (h : x ≠ ⊤) :
    ((x.untop' 0 : ℝ) : WithTop ℝ) = x := by
  obtain ⟨v, hv⟩ := WithTop.ne_top_iff_exists.1 h
  rw [← hv, WithTop.untop'_coe]

lemma untop'_pos {x : WithTop ℝ} (hne : x ≠ ⊤) (h : 0 < x) : 0 < x.untop' 0 := by
  obtain ⟨v, hv⟩ := WithTop.ne_top_iff_exists.1 hne
  rw [← hv] at h ⊢
  rw [WithTop.untop'_coe]
  exact_mod_cast h

/-- A `WithTop` list sum is `⊤` exactly when some element is. -/
lemma list_sum_eq_top {l : List (WithTop ℝ)} : l.sum = ⊤ ↔ ∃ x ∈ l, x = ⊤ := by
  induction l with
  | nil => simp
  | cons a t ih =>
    rw [List.sum_cons, WithTop.add_eq_top, ih]
    simp [List.mem_cons, or_and_right, exists_or]

/-- A top-free `WithTop` list sums to the coercion of the sum of its
underlying reals. -/
lemma list_sum_untop' {l : List (WithTop ℝ)} (h : ∀ x ∈ l, x ≠ ⊤) :
    l.sum = (((l.map (WithTop.untop' 0)).sum : ℝ) : WithTop ℝ) := by
  induction l with
  | nil => simp
  | cons a t ih =>
    rw [List.sum_cons, List.map_cons, List.sum_cons, WithTop.coe_add,
      ih (fun x hx => h x (List.mem_cons_of_mem a hx)),
      coe_untop'_of_ne_top (h a (List.mem_cons_self a t))]

lemma list_sum_div (l : List ℝ) (d : ℝ) :
    (l.map (fun x => x / d)).sum = l.sum / d := by
  induction l with
  | nil => simp
  | cons a t ih => simp [ih, add_div]

/-- C2 (amended): for ltm/tpm `probability` returns a singleton in
`[eps, 1-eps]` (so its sum is that probability, not 1); for grm it returns
the padded CDF sequence — first entry 0, last entry 1, interior entries in
`[eps, 1-eps]` — whose consecutive differences sum to 1; for gpcm it
returns a sequence of components in `(0, 1]` summing to 1. -/
theorem probability_sequence_bounds (E : ExpModel) (s : QuestionSet) (theta : ℝ) (q : ℕ) :
    ((s.model = "ltm" ∨ s.model = "tpm") → ∀ l, probability E s theta q = Except.ok l →
        ∃ p, l = [p] ∧ eps ≤ p ∧ p ≤ 1 - eps) ∧
    (s.model = "grm" → ∀ l, probability E s theta q = Except.ok l →
        (∃ mid, l = 0 :: mid ++ [1] ∧ ∀ x ∈ mid, eps ≤ x ∧ x ≤ 1 - eps) ∧
        (diffs l).sum = 1) ∧
    (s.model = "gpcm" → ∀ l, probability E s theta q = Except.ok l →
        l.sum = 1 ∧ ∀ x ∈ l, 0 < x ∧ x ≤ 1) := by
  refine ⟨?_, ?_, ?_⟩
  · intro hm l hl
    unfold probability at hl
    by_cases hq : s.answers.length < q
    · rw [if_pos hq] at hl; simp at hl
    rw [if_neg hq] at hl
    rw [if_neg (by rcases hm with hm | hm <;> rw [hm] <;> decide)] at hl
    rw [if_neg (by rcases hm with hm | hm <;> rw [hm] <;> decide)] at hl
    rw [if_pos hm] at hl
    rcases hp : prob_ltm E s theta q with msg | p
    · rw [hp] at hl; simp at hl
    · rw [hp] at hl
      simp only [map_ok, Except.ok.injEq] at hl
      exact ⟨p, hl.symm, prob_ltm_ok_mem hp⟩
  · intro hm l hl
    unfold probability at hl
    by_cases hq : s.answers.length < q
    · rw [if_pos hq] at hl; simp at hl
    rw [if_neg hq, if_pos hm] at hl
    rcases hd : atE s.discrimination q with msg | disc
    · unfold prob_grm at hl; rw [hd] at hl; simp at hl
    rcases hc : atE s.difficulty q with msg | cats
    · unfold prob_grm at hl; rw [hd, hc] at hl; simp at hl
    have hgr : prob_grm E s theta q =
        if hasAdjDup (paddedCDF E disc theta cats) then
          Except.error "Theta value too extreme for numerical routines."
        else Except.ok (paddedCDF E disc theta cats) := by
      unfold prob_grm
      rw [hd]
      simp only [ok_bind]
      rw [hc]
      simp only [ok_bind]
      rfl
    rw [hgr] at hl
    by_cases hdup : hasAdjDup (paddedCDF E disc theta cats)
    · rw [if_pos hdup] at hl; simp at hl
    rw [if_neg hdup] at hl
    simp only [Except.ok.injEq] at hl
    subst hl
    constructor
    · refine ⟨cats.map (grmCalc E disc theta), rfl, ?_⟩
      intro x hx
      obtain ⟨c, -, rfl⟩ := List.mem_map.1 hx
      exact grmCalc_bounds E disc theta c
    · show (diffs (0 :: (cats.map (grmCalc E disc theta) ++ [1]))).sum = 1
      rw [diffs_sum_aux]
      norm_num
  · intro hm l hl
    unfold probability at hl
    by_cases hq : s.answers.length < q
    · rw [if_pos hq] at hl; simp at hl
    rw [if_neg hq, if_neg (by rw [hm]; decide), if_pos hm] at hl
    rcases hd : atE s.discrimination q with msg | disc
    · unfold prob_gpcm at hl; rw [hd] at hl; simp at hl
    rcases hc : atE s.difficulty q with msg | cats
    · unfold prob_gpcm at hl; rw [hd, hc] at hl; simp at hl
    have hgp : prob_gpcm E s theta q =
        if (gpcmNums E disc theta cats).sum = 0 ∨ (gpcmNums E disc theta cats).sum = ⊤ then
          Except.error "Theta value too extreme for numerical routines."
        else Except.ok ((gpcmNums E disc theta cats).map
          (fun n => n.untop' 0 / ((gpcmNums E disc theta cats).sum.untop' 0))) := by
      unfold prob_gpcm
      rw [hd]
      simp only [ok_bind]
      rw [hc]
      simp only [ok_bind]
      rfl
    rw [hgp] at hl
    by_cases hbad : (gpcmNums E disc theta cats).sum = 0 ∨ (gpcmNums E disc theta cats).sum = ⊤
    · rw [if_pos hbad] at hl; simp at hl
    rw [if_neg hbad] at hl
    simp only [Except.ok.injEq] at hl
    subst hl
    push_neg at hbad
    obtain ⟨hzero, htop⟩ := hbad
    have hnetop : ∀ x ∈ gpcmNums E disc theta cats, x ≠ ⊤ := by
      intro x hx hxt
      exact htop (list_sum_eq_top.2 ⟨x, hx, hxt⟩)
    have hposall : ∀ x ∈ gpcmNums E disc theta cats, (0 : WithTop ℝ) < x := by
      intro x hx
      obtain ⟨y, -, rfl⟩ := List.mem_map.1 hx
      exact E.pos y
    set rs := (gpcmNums E disc theta cats).map (WithTop.untop' 0) with hrs
    have hsum_coe : (gpcmNums E disc theta cats).sum = ((rs.sum : ℝ) : WithTop ℝ) :=
      list_sum_untop' hnetop
    have hd_eq : ((gpcmNums E disc theta cats).sum).untop' 0 = rs.sum := by
      rw [hsum_coe, WithTop.untop'_coe]
    have hrs_pos : ∀ r ∈ rs, 0 < r := by
      intro r hr
      obtain ⟨x, hx, rfl⟩ := List.mem_map.1 hr
      exact untop'_pos (hnetop x hx) (hposall x hx)
    have hrs_sum_pos : 0 < rs.sum := by
      rcases (lt_or_eq_of_le (List.sum_nonneg (fun r hr => (hrs_pos r hr).le))) with h | h
      · exact h
      · exfalso
        apply hzero
        rw [hsum_coe, ← h]
        rfl
    have hmap : (gpcmNums E disc theta cats).map
        (fun n => n.untop' 0 / ((gpcmNums E disc theta cats).sum.untop' 0)) =
        rs.map (fun r => r / rs.sum) := by
      rw [hrs, List.map_map]
      refine List.map_congr_left ?_
      intro x _
      simp [hd_eq]
    rw [hmap]
    constructor
    · rw [list_sum_div]
      exact div_self hrs_sum_pos.ne'
    · intro x hx
      obtain ⟨r, hr, rfl⟩ := List.mem_map.1 hx
      constructor
      · exact div_pos (hrs_pos r hr) hrs_sum_pos
      · rw [div_le_one hrs_sum_pos]
        exact List.single_le_sum (fun y hy => (hrs_pos y hy).le) r hr

/-- C2 counterexample (claim as stated): for the unit ltm item the
returned sequence is the singleton `[1/2]`, whose sum is `1/2`, not 1. -/
theorem probability_sum_counterexample :
    probability oneExp ltmQS 0 0 = Except.ok [(1:ℝ)/2] ∧ ([(1:ℝ)/2]).sum ≠ 1 := by
  constructor
  · unfold probability
    rw [if_neg (by simp [ltmQS]), if_neg (by decide), if_neg (by decide),
      if_pos (show ltmQS.model = "ltm" ∨ ltmQS.model = "tpm" from Or.inl rfl),
      prob_ltm_oneExp_eval 0]
    rfl
  · simp

/-- Witness for `probability_sequence_bounds` on the unit gpcm item. -/
theorem probability_sequence_bounds_witness :
    ([(1:ℝ)/2, 1/2]).sum = 1 ∧ ∀ x ∈ [(1:ℝ)/2, 1/2], 0 < x ∧ x ≤ 1 := by
  refine (probability_sequence_bounds oneExp gpcmQS 0 0).2.2 rfl [(1:ℝ)/2, 1/2] ?_
  unfold probability
  rw [if_neg (by simp [gpcmQS, ltmQS]), if_neg (by decide),
    if_pos (show gpcmQS.model = "gpcm" from rfl)]
  unfold prob_gpcm
  rw [atE_of_get? (show gpcmQS.discrimination.get? 0 = some 1 from rfl)]
  simp only [ok_bind]
  rw [atE_of_get? (show gpcmQS.difficulty.get? 0 = some [0] from rfl)]
  simp only [ok_bind]
  have hsum : (gpcmNums oneExp 1 0 [0]).sum = ((2:ℝ) : WithTop ℝ) := by
    rw [gpcmNums_oneExp]
    simp [← WithTop.coe_add]
    norm_num
  have hcond : ¬((gpcmNums oneExp 1 0 [0]).sum = 0 ∨ (gpcmNums oneExp 1 0 [0]).sum = ⊤) := by
    rw [hsum]
    rintro (hc | hc)
    · rw [show ((0 : WithTop ℝ)) = ((0:ℝ) : WithTop ℝ) from rfl] at hc
      have h2 : (2:ℝ) = 0 := by exact_mod_cast hc
      norm_num at h2
    · exact absurd hc (by simp)
  rw [if_neg hcond, gpcmNums_oneExp]
  have hsum2 : ([((1:ℝ) : WithTop ℝ), ((1:ℝ) : WithTop ℝ)]).sum = ((2:ℝ) : WithTop ℝ) := by
    simp [← WithTop.coe_add]
    norm_num
  rw [hsum2]
  simp [WithTop.untop'_coe]
  rw [show ((2 : WithTop ℝ)) = ((2:ℝ) : WithTop ℝ) from by norm_cast, WithTop.untop'_coe]

/-! ### C6: agreement of the single-state and `(question, answer)` overloads -/

/-- The state obtained by committing a hypothetical `(question, answer)`
pair: `question` appended to `applicable_rows`, `answers[question] := a`. -/
def hypState (s : QuestionSet) (q : ℕ) (a : ℤ) : QuestionSet :=
  { s with applicable_rows := s.applicable_rows ++ [q], answers := s.answers.set q a }

lemma sumE_append_single (f : ℕ → Except String ℝ) (l : List ℕ) (q : ℕ) (acc : ℝ) :
    sumE f (l ++ [q]) acc =
      match sumE f l acc with
      | Except.error e => Except.error e
      | Except.ok L =>
        match f q with
        | Except.error e => Except.error e
        | Except.ok t => Except.ok (L + t) := by
  induction l generalizing acc with
  | nil =>
    simp only [List.nil_append, sumE]
  | cons r rs ih =>
    simp only [List.cons_append, sumE]
    cases f r with
    | error e => rfl
    | ok t => exact ih (acc + t)

lemma sumE_congr {f g : ℕ → Except String ℝ} (l : List ℕ) (acc : ℝ)
    (h : ∀ r ∈ l, f r = g r) : sumE f l acc = sumE g l acc := by
  induction l generalizing acc with
  | nil => rfl
  | cons r rs ih =>
    simp only [sumE]
    rw [h r (List.mem_cons_self r rs)]
    cases g r with
    | error e => rfl
    | ok t => exact ih _ (fun x hx => h x (List.mem_cons_of_mem r hx))

/-- Splitting off a trailing hypothetical row, with a post-processing of
the accumulated sum (the `exp`/negation applied after the loop). -/
lemma sumE_push (f g : ℕ → Except String ℝ) (rows : List ℕ) (q : ℕ)
    (x : Except String ℝ) (post : ℝ → ℝ)
    (hfg : ∀ r ∈ rows, f r = g r) (hfq : f q = x) :
    (sumE f (rows ++ [q]) 0 >>= fun L => (pure (post L) : Except String ℝ)) =
    (sumE g rows 0 >>= fun L => x >>= fun t => (pure (post (L + t)) : Except String ℝ)) := by
  rw [sumE_append_single, sumE_congr rows 0 hfg, hfq]
  cases sumE g rows 0 with
  | error e => simp
  | ok L => cases x <;> simp

/-- Splitting off a trailing hypothetical row for the derivative loops
(no post-processing). -/
lemma sumE_push' (f g : ℕ → Except String ℝ) (rows : List ℕ) (q : ℕ)
    (x : Except String ℝ)
    (hfg : ∀ r ∈ rows, f r = g r) (hfq : f q = x) :
    sumE f (rows ++ [q]) 0 =
    (sumE g rows 0 >>= fun L => x >>= fun t => (pure (L + t) : Except String ℝ)) := by
  rw [sumE_append_single, sumE_congr rows 0 hfg, hfq]
  cases sumE g rows 0 with
  | error e => simp
  | ok L => cases x <;> simp

lemma atE_set_ne {l : List ℤ} {q r : ℕ} (h : r ≠ q) (a : ℤ) :
    atE (l.set q a) r = atE l r := by
  unfold atE
  rw [List.get?_set_ne a l (fun hh => h hh.symm)]

lemma atE_set_eq {l : List ℤ} {q : ℕ} (h : q < l.length) (a : ℤ) :
    atE (l.set q a) q = Except.ok a := by
  unfold atE
  rw [List.get?_set_eq_of_lt a h]

/-- `probability` reads `answers` only through its length, which `set`
preserves; the other fields are untouched by the hypothetical commit. -/
lemma probability_hyp (E : ExpModel) (s : QuestionSet) (theta : ℝ) (q : ℕ) (a : ℤ)
    (r : ℕ) : probability E (hypState s q a) theta r = probability E s theta r := by
  unfold probability hypState
  simp only [List.length_set]
  rfl

lemma grm_partial_d2LL_ans_hyp (E : ExpModel) (s : QuestionSet) (theta : ℝ) (q : ℕ)
    (a : ℤ) (r : ℕ) (ans : ℤ) :
    grm_partial_d2LL_ans E (hypState s q a) theta r ans =
      grm_partial_d2LL_ans E s theta r ans := by
  unfold grm_partial_d2LL_ans
  rw [probability_hyp]

lemma gpcm_partial_d2LL_ans_hyp (E : ExpModel) (s : QuestionSet) (theta : ℝ) (q : ℕ)
    (a : ℤ) (r : ℕ) (ans : ℤ) :
    gpcm_partial_d2LL_ans E (hypState s q a) theta r ans =
      gpcm_partial_d2LL_ans E s theta r ans := by
  unfold gpcm_partial_d2LL_ans
  rw [probability_hyp]
  rfl

lemma gpcm_partial_d1LL_ans_hyp (E : ExpModel) (s : QuestionSet) (theta : ℝ) (q : ℕ)
    (a : ℤ) (r : ℕ) (ans : ℤ) :
    gpcm_partial_d1LL_ans E (hypState s q a) theta r ans =
      gpcm_partial_d1LL_ans E s theta r ans := by
  unfold gpcm_partial_d1LL_ans
  rw [probability_hyp]
  rfl

lemma ltm_like_term_hyp (E : ExpModel) (s : QuestionSet) (theta : ℝ) (q : ℕ) (a : ℤ)
    (r : ℕ) (h : r ≠ q) :
    ltm_like_term E (hypState s q a) theta r = ltm_like_term E s theta r := by
  unfold ltm_like_term
  rw [show atE (hypState s q a).answers r = atE s.answers r from atE_set_ne h a]
  rfl

lemma grm_like_term_hyp (E : ExpModel) (s : QuestionSet) (theta : ℝ) (q : ℕ) (a : ℤ)
    (r : ℕ) (h : r ≠ q) :
    grm_like_term E (hypState s q a) theta r = grm_like_term E s theta r := by
  unfold grm_like_term
  rw [show atE (hypState s q a).answers r = atE s.answers r from atE_set_ne h a,
    probability_hyp]

lemma gpcm_like_term_hyp (E : ExpModel) (s : QuestionSet) (theta : ℝ) (q : ℕ) (a : ℤ)
    (r : ℕ) (h : r ≠ q) :
    gpcm_like_term E (hypState s q a) theta r = gpcm_like_term E s theta r := by
  unfold gpcm_like_term
  rw [show atE (hypState s q a).answers r = atE s.answers r from atE_set_ne h a,
    probability_hyp]

lemma ltm_d1_term_hyp (E : ExpModel) (s : QuestionSet) (theta : ℝ) (q : ℕ) (a : ℤ)
    (r : ℕ) (h : r ≠ q) :
    ltm_d1_term E (hypState s q a) theta r = ltm_d1_term E s theta r := by
  unfold ltm_d1_term
  rw [show atE (hypState s q a).answers r = atE s.answers r from atE_set_ne h a]
  rfl

lemma grm_d1_term_hyp (E : ExpModel) (s : QuestionSet) (theta : ℝ) (q : ℕ) (a : ℤ)
    (r : ℕ) (h : r ≠ q) :
    grm_d1_term E (hypState s q a) theta r = grm_d1_term E s theta r := by
  unfold grm_d1_term
  rw [show atE (hypState s q a).answers r = atE s.answers r from atE_set_ne h a,
    probability_hyp]
  rfl

lemma gpcm_d1_term_hyp (E : ExpModel) (s : QuestionSet) (theta : ℝ) (q : ℕ) (a : ℤ)
    (r : ℕ) (h : r ≠ q) :
    gpcm_d1_term E (hypState s q a) theta r = gpcm_d1_term E s theta r := by
  unfold gpcm_d1_term
  rw [show atE (hypState s q a).answers r = atE s.answers r from atE_set_ne h a]
  simp only [gpcm_partial_d1LL_ans_hyp]

lemma grm_d2_term_hyp (E : ExpModel) (s : QuestionSet) (theta : ℝ) (q : ℕ) (a : ℤ)
    (r : ℕ) (h : r ≠ q) :
    grm_d2_term E (hypState s q a) theta r = grm_d2_term E s theta r := by
  unfold grm_d2_term
  rw [show atE (hypState s q a).answers r = atE s.answers r from atE_set_ne h a]
  simp only [grm_partial_d2LL_ans_hyp]
  rfl

lemma gpcm_d2_term_hyp (E : ExpModel) (s : QuestionSet) (theta : ℝ) (q : ℕ) (a : ℤ)
    (r : ℕ) (h : r ≠ q) :
    gpcm_d2_term E (hypState s q a) theta r = gpcm_d2_term E s theta r := by
  unfold gpcm_d2_term
  rw [show atE (hypState s q a).answers r = atE s.answers r from atE_set_ne h a]
  simp only [gpcm_partial_d2LL_ans_hyp]

lemma ltm_like_term_q (E : ExpModel) (s : QuestionSet) (theta : ℝ) (q : ℕ) (a : ℤ)
    (hlen : q < s.answers.length) :
    ltm_like_term E (hypState s q a) theta q = ltm_like_extra E s theta q a := by
  unfold ltm_like_term ltm_like_extra
  rw [show atE (hypState s q a).answers q = Except.ok a from atE_set_eq hlen a]
  simp only [ok_bind]
  rfl

lemma grm_like_term_q (E : ExpModel) (s : QuestionSet) (theta : ℝ) (q : ℕ) (a : ℤ)
    (hlen : q < s.answers.length) :
    grm_like_term E (hypState s q a) theta q = grm_like_extra E s theta q a := by
  unfold grm_like_term grm_like_extra
  rw [show atE (hypState s q a).answers q = Except.ok a from atE_set_eq hlen a,
    probability_hyp]
  simp only [ok_bind]

lemma gpcm_like_term_q (E : ExpModel) (s : QuestionSet) (theta : ℝ) (q : ℕ) (a : ℤ)
    (hlen : q < s.answers.length) :
    gpcm_like_term E (hypState s q a) theta q = gpcm_like_extra E s theta q a := by
  unfold gpcm_like_term gpcm_like_extra
  rw [show atE (hypState s q a).answers q = Except.ok a from atE_set_eq hlen a,
    probability_hyp]
  simp only [ok_bind]

lemma ltm_d1_term_q (E : ExpModel) (s : QuestionSet) (theta : ℝ) (q : ℕ) (a : ℤ)
    (hlen : q < s.answers.length) :
    ltm_d1_term E (hypState s q a) theta q = ltm_d1_extra E s theta q a := by
  unfold ltm_d1_term ltm_d1_extra
  rw [show atE (hypState s q a).answers q = Except.ok a from atE_set_eq hlen a]
  simp only [ok_bind]
  rfl

lemma grm_d1_term_q (E : ExpModel) (s : QuestionSet) (theta : ℝ) (q : ℕ) (a : ℤ)
    (hlen : q < s.answers.length) :
    grm_d1_term E (hypState s q a) theta q = grm_d1_extra E s theta q a := by
  unfold grm_d1_term grm_d1_extra
  rw [show atE (hypState s q a).answers q = Except.ok a from atE_set_eq hlen a,
    probability_hyp]
  simp only [ok_bind]
  rfl

lemma gpcm_d1_term_q (E : ExpModel) (s : QuestionSet) (theta : ℝ) (q : ℕ) (a : ℤ)
    (hlen : q < s.answers.length) :
    gpcm_d1_term E (hypState s q a) theta q = gpcm_partial_d1LL_ans E s theta q a := by
  unfold gpcm_d1_term
  rw [show atE (hypState s q a).answers q = Except.ok a from atE_set_eq hlen a]
  simp only [ok_bind, gpcm_partial_d1LL_ans_hyp]

/-- The two syntactically different loop bodies of `ltm_d2LL` compute the
same value: `disc^2 * lambda^2 = (disc * lambda)^2`. -/
lemma ltm_d2_term_eq (E : ExpModel) (s : QuestionSet) (theta : ℝ) (r : ℕ) :
    ltm_d2_term E s theta r = ltm_d2_termQA E s theta r := by
  unfold ltm_d2_term ltm_d2_termQA
  cases prob_ltm E s theta r with
  | error e => simp
  | ok P =>
    simp only [ok_bind]
    cases atE s.guessing r with
    | error e => simp
    | ok g =>
      simp only [ok_bind]
      cases atE s.discrimination r with
      | error e => simp
      | ok d =>
        simp only [ok_bind, pure_eq_ok, Except.ok.injEq]
        ring

lemma ltm_d2_term_hyp (E : ExpModel) (s : QuestionSet) (theta : ℝ) (q : ℕ) (a : ℤ)
    (r : ℕ) : ltm_d2_term E (hypState s q a) theta r = ltm_d2_term E s theta r := rfl

lemma ltm_d2_termQA_q (E : ExpModel) (s : QuestionSet) (theta : ℝ) (q : ℕ) :
    ltm_d2_termQA E s theta q = ltm_d2_extra E s theta q := rfl

lemma grm_d2_term_q (E : ExpModel) (s : QuestionSet) (theta : ℝ) (q : ℕ) (a : ℤ)
    (hlen : q < s.answers.length) :
    grm_d2_term E (hypState s q a) theta q = grm_d2_extra E s theta q a := by
  unfold grm_d2_term grm_d2_extra
  rw [show atE (hypState s q a).answers q = Except.ok a from atE_set_eq hlen a]
  simp only [ok_bind, grm_partial_d2LL_ans_hyp]
  rfl

lemma gpcm_d2_term_q (E : ExpModel) (s : QuestionSet) (theta : ℝ) (q : ℕ) (a : ℤ)
    (hlen : q < s.answers.length) :
    gpcm_d2_term E (hypState s q a) theta q = gpcm_partial_d2LL_ans E s theta q a := by
  unfold gpcm_d2_term
  rw [show atE (hypState s q a).answers q = Except.ok a from atE_set_eq hlen a]
  simp only [ok_bind, gpcm_partial_d2LL_ans_hyp]

lemma likelihood_ltm_hyp (E : ExpModel) (s : QuestionSet) (theta : ℝ) (q : ℕ) (a : ℤ)
    (hq : q ∉ s.applicable_rows) (hlen : q < s.answers.length) :
    likelihood_ltm E (hypState s q a) theta = likelihood_ltmQA E s theta q a := by
  unfold likelihood_ltm likelihood_ltmQA
  rw [show (hypState s q a).applicable_rows = s.applicable_rows ++ [q] from rfl]
  exact sumE_push _ _ _ _ _ _
    (fun r hr => ltm_like_term_hyp E s theta q a r (fun hrq => hq (hrq ▸ hr)))
    (ltm_like_term_q E s theta q a hlen)

lemma likelihood_grm_hyp (E : ExpModel) (s : QuestionSet) (theta : ℝ) (q : ℕ) (a : ℤ)
    (hq : q ∉ s.applicable_rows) (hlen : q < s.answers.length) :
    likelihood_grm E (hypState s q a) theta = likelihood_grmQA E s theta q a := by
  unfold likelihood_grm likelihood_grmQA
  rw [show (hypState s q a).applicable_rows = s.applicable_rows ++ [q] from rfl]
  exact sumE_push _ _ _ _ _ _
    (fun r hr => grm_like_term_hyp E s theta q a r (fun hrq => hq (hrq ▸ hr)))
    (grm_like_term_q E s theta q a hlen)

lemma likelihood_gpcm_hyp (E : ExpModel) (s : QuestionSet) (theta : ℝ) (q : ℕ) (a : ℤ)
    (hq : q ∉ s.applicable_rows) (hlen : q < s.answers.length) :
    likelihood_gpcm E (hypState s q a) theta = likelihood_gpcmQA E s theta q a := by
  unfold likelihood_gpcm likelihood_gpcmQA
  rw [show (hypState s q a).applicable_rows = s.applicable_rows ++ [q] from rfl]
  exact sumE_push _ _ _ _ _ _
    (fun r hr => gpcm_like_term_hyp E s theta q a r (fun hrq => hq (hrq ▸ hr)))
    (gpcm_like_term_q E s theta q a hlen)

lemma ltm_d1LL_hyp (E : ExpModel) (s : QuestionSet) (theta : ℝ) (q : ℕ) (a : ℤ)
    (hq : q ∉ s.applicable_rows) (hlen : q < s.answers.length) :
    ltm_d1LL E (hypState s q a) theta = ltm_d1LLQA E s theta q a := by
  unfold ltm_d1LL ltm_d1LLQA
  rw [show (hypState s q a).applicable_rows = s.applicable_rows ++ [q] from rfl]
  exact sumE_push' _ _ _ _ _
    (fun r hr => ltm_d1_term_hyp E s theta q a r (fun hrq => hq (hrq ▸ hr)))
    (ltm_d1_term_q E s theta q a hlen)

lemma grm_d1LL_hyp (E : ExpModel) (s : QuestionSet) (theta : ℝ) (q : ℕ) (a : ℤ)
    (hq : q ∉ s.applicable_rows) (hlen : q < s.answers.length) :
    grm_d1LL E (hypState s q a) theta = grm_d1LLQA E s theta q a := by
  unfold grm_d1LL grm_d1LLQA
  rw [show (hypState s q a).applicable_rows = s.applicable_rows ++ [q] from rfl]
  exact sumE_push' _ _ _ _ _
    (fun r hr => grm_d1_term_hyp E s theta q a r (fun hrq => hq (hrq ▸ hr)))
    (grm_d1_term_q E s theta q a hlen)

lemma gpcm_d1LL_hyp (E : ExpModel) (s : QuestionSet) (theta : ℝ) (q : ℕ) (a : ℤ)
    (hq : q ∉ s.applicable_rows) (hlen : q < s.answers.length) :
    gpcm_d1LL E (hypState s q a) theta = gpcm_d1LLQA E s theta q a := by
  unfold gpcm_d1LL gpcm_d1LLQA
  rw [show (hypState s q a).applicable_rows = s.applicable_rows ++ [q] from rfl]
  exact sumE_push' _ _ _ _ _
    (fun r hr => gpcm_d1_term_hyp E s theta q a r (fun hrq => hq (hrq ▸ hr)))
    (gpcm_d1_term_q E s theta q a hlen)

lemma ltm_d2LL_hyp (E : ExpModel) (s : QuestionSet) (theta : ℝ) (q : ℕ) (a : ℤ)
    (hq : q ∉ s.applicable_rows) (hlen : q < s.answers.length) :
    ltm_d2LL E (hypState s q a) theta = ltm_d2LLQA E s theta q := by
  unfold ltm_d2LL ltm_d2LLQA
  rw [show (hypState s q a).applicable_rows = s.applicable_rows ++ [q] from rfl]
  refine sumE_push _ _ _ _ _ _ (fun r hr => ?_) ?_
  · rw [ltm_d2_term_hyp, ltm_d2_term_eq]
  · rw [ltm_d2_term_hyp, ltm_d2_term_eq, ltm_d2_termQA_q]

lemma grm_d2LL_hyp (E : ExpModel) (s : QuestionSet) (theta : ℝ) (q : ℕ) (a : ℤ)
    (hq : q ∉ s.applicable_rows) (hlen : q < s.answers.length) :
    grm_d2LL E (hypState s q a) theta = grm_d2LLQA E s theta q a := by
  unfold grm_d2LL grm_d2LLQA
  rw [show (hypState s q a).applicable_rows = s.applicable_rows ++ [q] from rfl]
  exact sumE_push' _ _ _ _ _
    (fun r hr => grm_d2_term_hyp E s theta q a r (fun hrq => hq (hrq ▸ hr)))
    (grm_d2_term_q E s theta q a hlen)

lemma gpcm_d2LL_hyp (E : ExpModel) (s : QuestionSet) (theta : ℝ) (q : ℕ) (a : ℤ)
    (hq : q ∉ s.applicable_rows) (hlen : q < s.answers.length) :
    gpcm_d2LL E (hypState s q a) theta = gpcm_d2LLQA E s theta q a := by
  unfold gpcm_d2LL gpcm_d2LLQA
  rw [show (hypState s q a).applicable_rows = s.applicable_rows ++ [q] from rfl]
  exact sumE_push' _ _ _ _ _
    (fun r hr => gpcm_d2_term_hyp E s theta q a r (fun hrq => hq (hrq ▸ hr)))
    (gpcm_d2_term_q E s theta q a hlen)

/-- C6: the `(question, answer)`-augmented overloads of `likelihood`,
`d1LL` and `d2LL` evaluated on the current state agree with the
single-state versions evaluated on the state with `question` appended to
`applicable_rows` and `answers[question] := answer`. -/
theorem overloads_agree (E : ExpModel) (s : QuestionSet) (theta : ℝ) (q : ℕ) (a : ℤ)
    (use_prior : Bool) (prior : Prior)
    (hq : q ∉ s.applicable_rows) (hlen : q < s.answers.length) :
    likelihood E (hypState s q a) theta = likelihoodQA E s theta q a ∧
    d1LL E (hypState s q a) theta use_prior prior = d1LLQA E s theta use_prior prior q a ∧
    d2LL E (hypState s q a) theta use_prior prior = d2LLQA E s theta use_prior prior q a := by
  have hne : ¬((hypState s q a).applicable_rows = []) := by
    show ¬(s.applicable_rows ++ [q] = [])
    simp
  have hmodel : (hypState s q a).model = s.model := rfl
  refine ⟨?_, ?_, ?_⟩
  · unfold likelihood likelihoodQA
    simp only [hmodel]
    by_cases h1 : s.model = "ltm" ∨ s.model = "tpm"
    · rw [if_pos h1, if_pos h1]
      exact likelihood_ltm_hyp E s theta q a hq hlen
    · rw [if_neg h1, if_neg h1]
      by_cases h2 : s.model = "grm"
      · rw [if_pos h2, if_pos h2]
        exact likelihood_grm_hyp E s theta q a hq hlen
      · rw [if_neg h2, if_neg h2]
        by_cases h3 : s.model = "gpcm"
        · rw [if_pos h3, if_pos h3]
          exact likelihood_gpcm_hyp E s theta q a hq hlen
        · rw [if_neg h3, if_neg h3]
  · unfold d1LL d1LLQA
    dsimp only
    rw [if_neg hne]
    simp only [hmodel]
    by_cases h1 : s.model = "ltm" ∨ s.model = "tpm"
    · rw [if_pos h1, if_pos h1, ltm_d1LL_hyp E s theta q a hq hlen]
    · rw [if_neg h1, if_neg h1]
      by_cases h2 : s.model = "grm"
      · rw [if_pos h2, if_pos h2, grm_d1LL_hyp E s theta q a hq hlen]
      · rw [if_neg h2, if_neg h2]
        by_cases h3 : s.model = "gpcm"
        · rw [if_pos h3, if_pos h3, gpcm_d1LL_hyp E s theta q a hq hlen]
        · rw [if_neg h3, if_neg h3]
  · unfold d2LL d2LLQA
    dsimp only
    rw [if_neg hne]
    simp only [hmodel]
    by_cases h1 : s.model = "ltm" ∨ s.model = "tpm"
    · rw [if_pos h1, if_pos h1, ltm_d2LL_hyp E s theta q a hq hlen]
    · rw [if_neg h1, if_neg h1]
      by_cases h2 : s.model = "grm"
      · rw [if_pos h2, if_pos h2, grm_d2LL_hyp E s theta q a hq hlen]
      · rw [if_neg h2, if_neg h2]
        by_cases h3 : s.model = "gpcm"
        · rw [if_pos h3, if_pos h3, gpcm_d2LL_hyp E s theta q a hq hlen]
        · rw [if_neg h3, if_neg h3]

/-- Witness for `overloads_agree` on the unit ltm item with hypothetical
answer 1. -/
theorem overloads_agree_witness :
    likelihood oneExp (hypState ltmQS 0 1) 0 = likelihoodQA oneExp ltmQS 0 0 1 ∧
    d1LL oneExp (hypState ltmQS 0 1) 0 true ⟨0, 1⟩ = d1LLQA oneExp ltmQS 0 true ⟨0, 1⟩ 0 1 ∧
    d2LL oneExp (hypState ltmQS 0 1) 0 true ⟨0, 1⟩ = d2LLQA oneExp ltmQS 0 true ⟨0, 1⟩ 0 1 :=
  overloads_agree oneExp ltmQS 0 0 1 true ⟨0, 1⟩ (by simp [ltmQS]) (by simp [ltmQS])

/-! ### C5: the MFII selector scan -/

lemma mfiiLoop_of_all_le (score : ℕ → ℝ) (l : List ℕ) (m : ℝ) (mi : ℤ)
    (h : ∀ x ∈ l, score x ≤ m) : mfiiLoop score l m mi = mi := by
  induction l generalizing m mi with
  | nil => rfl
  | cons c cs ih =>
    unfold mfiiLoop
    rw [if_neg (not_lt.2 (h c (List.mem_cons_self c cs)))]
    exact ih _ _ (fun x hx => h x (List.mem_cons_of_mem c hx))

lemma getD_mem {l : List ℕ} {j : ℕ} (h : j < l.length) : l.getD j 0 ∈ l := by
  induction l generalizing j with
  | nil => simp at h
  | cons c cs ih =>
    cases j with
    | zero => simp
    | succ j' =>
      rw [List.getD_cons_succ]
      exact List.mem_cons_of_mem c (ih (Nat.lt_of_succ_lt_succ h))

/-- The scan returns the first-encountered candidate achieving the running
maximum, provided some candidate strictly beats the initial maximum. -/
lemma mfiiLoop_spec (score : ℕ → ℝ) :
    ∀ (l : List ℕ) (m : ℝ) (mi : ℤ), (∃ x ∈ l, m < score x) →
    ∃ i, i < l.length ∧ mfiiLoop score l m mi = ((l.getD i 0 : ℕ) : ℤ) ∧
      m < score (l.getD i 0) ∧
      (∀ j, j < l.length → score (l.getD j 0) ≤ score (l.getD i 0)) ∧
      (∀ j, j < i → score (l.getD j 0) < score (l.getD i 0)) := by
  intro l
  induction l with
  | nil =>
    intro m mi h
    simp at h
  | cons c cs ih =>
    intro m mi hex
    by_cases hc : m < score c
    · unfold mfiiLoop
      rw [if_pos hc]
      by_cases hcs : ∃ x ∈ cs, score c < score x
      · obtain ⟨i, hilen, heq, hgt, hmax, hfirst⟩ := ih (score c) (c : ℤ) hcs
        refine ⟨i + 1, Nat.succ_lt_succ hilen, ?_, ?_, ?_, ?_⟩
        · rw [List.getD_cons_succ]
          exact heq
        · rw [List.getD_cons_succ]
          exact lt_trans hc hgt
        · intro j hj
          rw [List.getD_cons_succ]
          cases j with
          | zero =>
            rw [List.getD_cons_zero]
            exact hgt.le
          | succ j' =>
            rw [List.getD_cons_succ]
            exact hmax j' (Nat.lt_of_succ_lt_succ hj)
        · intro j hj
          rw [List.getD_cons_succ]
          cases j with
          | zero =>
            rw [List.getD_cons_zero]
            exact hgt
          | succ j' =>
            rw [List.getD_cons_succ]
            exact hfirst j' (Nat.lt_of_succ_lt_succ hj)
      · push_neg at hcs
        rw [mfiiLoop_of_all_le score cs (score c) (c : ℤ) hcs]
        refine ⟨0, Nat.succ_pos _, by rw [List.getD_cons_zero], ?_, ?_, ?_⟩
        · rw [List.getD_cons_zero]
          exact hc
        · intro j hj
          rw [List.getD_cons_zero]
          cases j with
          | zero => rw [List.getD_cons_zero]
          | succ j' =>
            rw [List.getD_cons_succ]
            exact hcs _ (getD_mem (Nat.lt_of_succ_lt_succ hj))
        · intro j hj
          exact absurd hj (Nat.not_lt_zero j)
    · unfold mfiiLoop
      rw [if_neg hc]
      have hcs : ∃ x ∈ cs, m < score x := by
        obtain ⟨x, hx, hxm⟩ := hex
        rcases List.mem_cons.1 hx with rfl | hx'
        · exact absurd hxm hc
        · exact ⟨x, hx', hxm⟩
      obtain ⟨i, hilen, heq, hgt, hmax, hfirst⟩ := ih m mi hcs
      refine ⟨i + 1, Nat.succ_lt_succ hilen, ?_, ?_, ?_, ?_⟩
      · rw [List.getD_cons_succ]
        exact heq
      · rw [List.getD_cons_succ]
        exact hgt
      · intro j hj
        rw [List.getD_cons_succ]
        cases j with
        | zero =>
          rw [List.getD_cons_zero]
          exact le_trans (not_lt.1 hc) hgt.le
        | succ j' =>
          rw [List.getD_cons_succ]
          exact hmax j' (Nat.lt_of_succ_lt_succ hj)
      · intro j hj
        rw [List.getD_cons_succ]
        cases j with
        | zero =>
          rw [List.getD_cons_zero]
          exact lt_of_le_of_lt (not_lt.1 hc) hgt
        | succ j' =>
          rw [List.getD_cons_succ]
          exact hfirst j' (Nat.lt_of_succ_lt_succ hj)

/-- C5 (amended): `selectItem` records every candidate's score in scan
order; provided some candidate's score strictly exceeds the initial
running maximum `0.0`, the selected item is the first-encountered
candidate with the maximal score.  (When every score is `≤ 0` the sentinel
`-1` is returned instead — see the counterexample.) -/
theorem mfii_selectItem_spec (s : QuestionSet) (score : ℕ → ℝ)
    (hpos : ∃ c ∈ s.nonapplicable_rows, 0 < score c) :
    (selectItem s score).values = s.nonapplicable_rows.map score ∧
    ∃ i, i < s.nonapplicable_rows.length ∧
      (selectItem s score).item = ((s.nonapplicable_rows.getD i 0 : ℕ) : ℤ) ∧
      (∀ j, j < s.nonapplicable_rows.length →
        score (s.nonapplicable_rows.getD j 0) ≤ score (s.nonapplicable_rows.getD i 0)) ∧
      (∀ j, j < i →
        score (s.nonapplicable_rows.getD j 0) < score (s.nonapplicable_rows.getD i 0)) := by
  obtain ⟨i, hilen, heq, -, hmax, hfirst⟩ :=
    mfiiLoop_spec score s.nonapplicable_rows 0 (-1) hpos
  exact ⟨rfl, i, hilen, heq, hmax, hfirst⟩

/-- Witness for `mfii_selectItem_spec` at a one-candidate state with a
positive score. -/
theorem mfii_selectItem_spec_witness :
    (selectItem ltmQS (fun _ => 1)).values = ltmQS.nonapplicable_rows.map (fun _ => (1:ℝ)) ∧
    ∃ i, i < ltmQS.nonapplicable_rows.length ∧
      (selectItem ltmQS (fun _ => 1)).item = ((ltmQS.nonapplicable_rows.getD i 0 : ℕ) : ℤ) ∧
      (∀ j, j < ltmQS.nonapplicable_rows.length → (1:ℝ) ≤ 1) ∧
      (∀ j, j < i → (1:ℝ) < 1) :=
  mfii_selectItem_spec ltmQS (fun _ => 1) ⟨0, by simp [ltmQS], one_pos⟩

/-- C5 counterexample (claim as stated): when every candidate's `fii` score
is `≤ 0` — e.g. zero, as happens when the confidence window is degenerate —
the strict `>` scan never updates and `selectItem` returns the sentinel
`-1`, not the maximal-score candidate `0`. -/
theorem mfii_selectItem_counterexample :
    (selectItem ltmQS (fun _ => (0:ℝ))).item = -1 ∧
    ltmQS.nonapplicable_rows = [0] ∧ ((-1 : ℤ) ≠ 0) := by
  refine ⟨?_, rfl, by norm_num⟩
  show mfiiLoop (fun _ => (0:ℝ)) [0] 0 (-1) = -1
  unfold mfiiLoop
  rw [if_neg (lt_irrefl (0:ℝ))]
  rfl

/-! ### C1: transient mutation is not restored on a thrown error -/

/-- Modelled from the spec: an estimation strategy whose standard-error
evaluation raises a numeric-domain error — as the EAP/root-finding
estimators (§4.3) do when the likelihood evaluation inside them hits a
theta too extreme for the model (§7, errors propagate to the caller). -/
def errEst : EstModel where
  estimateTheta := fun _ _ => Except.ok 0
  estimateSE := fun _ _ => Except.error "Theta value too extreme for numerical routines."

/-- Concrete evaluation: `probability` on the unit grm item. -/
lemma probability_grmQS_eval : probability oneExp grmQS 0 0 = Except.ok [0, 1/2, 1] := by
  unfold probability
  rw [if_neg (by simp [grmQS, ltmQS]), if_pos (show grmQS.model = "grm" from rfl)]
  unfold prob_grm
  rw [atE_of_get? (show grmQS.discrimination.get? 0 = some 1 from rfl)]
  simp only [ok_bind]
  rw [atE_of_get? (show grmQS.difficulty.get? 0 = some [0] from rfl)]
  simp only [ok_bind]
  rw [paddedCDF_oneExp]
  rw [if_neg (show ¬ hasAdjDup [0, 1/2, 1] from by
    simp only [hasAdjDup]
    norm_num)]
  rfl

lemma polyPV_grmQS_eval : polytomous_posterior_variance oneExp errEst grmQS 0 ⟨0, 1⟩ =
    (Except.error "Theta value too extreme for numerical routines.",
      setAnswer (pushRow grmQS 0) 0 1) := by
  unfold polytomous_posterior_variance
  rw [show errEst.estimateTheta grmQS ⟨0, 1⟩ = Except.ok 0 from rfl]
  dsimp only
  rw [probability_grmQS_eval]
  rfl

/-- C1 (code bug): a numeric-domain error thrown by the estimator inside
`expectedPV`'s hypothetical-answer loop escapes before the `pop_back` and
the `NA_INTEGER` reset run, leaving the candidate item committed in
`applicable_rows` and a hypothetical value in `answers[item]` — the
transient mutation is not restored on this exit path. -/
theorem expectedPV_error_leaves_mutation :
    (expectedPV oneExp errEst grmQS 0 ⟨0, 1⟩).2.applicable_rows = [0] ∧
    grmQS.applicable_rows = [] ∧
    (expectedPV oneExp errEst grmQS 0 ⟨0, 1⟩).2.answers = [(1:ℤ)] ∧
    grmQS.answers = [NA_INTEGER] ∧ ((1:ℤ) ≠ NA_INTEGER) := by
  have hfull : expectedPV oneExp errEst grmQS 0 ⟨0, 1⟩ =
      (Except.error "Theta value too extreme for numerical routines.",
        setAnswer (pushRow grmQS 0) 0 1) := by
    unfold expectedPV
    dsimp only
    rw [if_neg (by decide), if_pos (show grmQS.model = "grm" from rfl), polyPV_grmQS_eval]
  rw [hfull]
  exact ⟨rfl, rfl, rfl, rfl, by decide⟩

end CatSurv
